import Mathlib

/-!
# ClawDug — Score Ledger & Epoch Settlement Engine: a shallow embedding

This file embeds the `ClawDug.sol` contracts (`DugToken`, `AgentRegistry`,
`ClawDugGame`) as pure Lean functions and proves or refutes the specification
claims about them.

Modelling conventions:
* Solidity `uint256` is modelled by `Nat`. All arithmetic in the contract is
  Solidity ≥0.8 checked arithmetic (overflow reverts); the quantities involved
  (fees, pools, supplies bounded by `MAX_SUPPLY`, timestamps) never reach
  `2^256` on the paths the claims are about, so plain `Nat` arithmetic agrees
  with the EVM behaviour there.
* `address` and `bytes32` are modelled by `Nat`; `0` is the null address
  `address(0)`.
* A reverting call is modelled by `Except GameError`: `.error e` is a revert,
  and — exactly as in the EVM — a revert leaves the pre-call state in force
  (the embedding returns no state on `.error`).
* ECDSA recovery is outside the embedding: the parameter `recovered` of
  `submitScore` stands for `ECDSA.recover(toEthSignedMessageHash(msgHash),
  signature)`, the address the supplied signature recovers to for this
  payload.
* Each fixed-size leaderboard array (`ScoreEntry[20]` plus its occupancy
  counter `humanLBCount`/`agentLBCount`) is modelled by the list of its
  occupied entries, i.e. the first `count` slots; the unoccupied tail slots
  are all-zero placeholder entries that the shift loop merely copies around.
  The shift-down-and-write loop of `_updateLeaderboard` then becomes: insert
  at the found index and truncate to `LB_SIZE`; the unconditional
  `if (count < LB_SIZE) count++` of `submitScore` is subsumed because the
  occupied-list length grows by one exactly when `count < LB_SIZE`.
-/

namespace ClawDug

abbrev Address := Nat

abbrev Bytes32 := Nat

/-- The typed failure taxonomy: each `require` string of the source mapped to
a constructor (`Game: session already used` ↦ `ReplayedSession`,
`Game: signature expired` ↦ `ExpiredSignature`, `Game: invalid signature` ↦
`InvalidSignature`, `DUG: max supply exceeded` ↦ `SupplyExceeded`,
`Game: epoch not ended` ↦ `EpochNotEnded`, `Game: already settled` ↦
`AlreadySettled`), plus the OpenZeppelin ERC-20 transfer/burn failures. -/
inductive GameError where
  | ReplayedSession
  | ExpiredSignature
  | InvalidSignature
  | SupplyExceeded
  | EpochNotEnded
  | AlreadySettled
  | InsufficientAllowance
  | InsufficientBalance
deriving DecidableEq, Repr

-- ---- Constants of `ClawDugGame` and `DugToken` (verbatim values) ----

/-- `DugToken.MAX_SUPPLY = 100_000_000 * 10**18`. -/
def MAX_SUPPLY : Nat := 100000000 * 10 ^ 18

/-- `PRIZE_POOL_BPS = 7000`. -/
def PRIZE_POOL_BPS : Nat := 7000

/-- `BURN_BPS = 1000`. -/
def BURN_BPS : Nat := 1000

/-- `TREASURY_BPS = 2000`. -/
def TREASURY_BPS : Nat := 2000

/-- `BPS_DENOM = 10000`. -/
def BPS_DENOM : Nat := 10000

/-- `REWARD_PER_KILL = 2 * 10**18`. -/
def REWARD_PER_KILL : Nat := 2 * 10 ^ 18

/-- `REWARD_PER_ROUND = 10 * 10**18`. -/
def REWARD_PER_ROUND : Nat := 10 * 10 ^ 18

/-- `REWARD_MILESTONE = 50 * 10**18`. -/
def REWARD_MILESTONE : Nat := 50 * 10 ^ 18

/-- `LB_SIZE = 20`. -/
def LB_SIZE : Nat := 20

/-- `5 minutes` of `submitScore`'s freshness check, in seconds. -/
def FRESHNESS_WINDOW : Nat := 300

-- ---- DugToken (ERC-20 with mint/burn) ----

/-- The ERC-20 ledger of `DugToken`: total supply, balances, allowances
(`allowances owner spender`). -/
structure TokenState where
  totalSupply : Nat
  balances : Address → Nat
  allowances : Address → Address → Nat

namespace DugToken

/-- `DugToken.mint`: `require(totalSupply() + amount <= MAX_SUPPLY)` then
OpenZeppelin `_mint` (supply and recipient balance grow by `amount`).
The `onlyGame` modifier is implicit: every call site in this embedding is the
game contract. -/
def mint (t : TokenState) (dst : Address) (amount : Nat) :
    Except GameError TokenState :=
  if t.totalSupply + amount ≤ MAX_SUPPLY then
    .ok { t with
      totalSupply := t.totalSupply + amount
      balances := fun a => if a = dst then t.balances a + amount else t.balances a }
  else .error .SupplyExceeded

/-- `ERC20Burnable.burn(amount)` called by `caller` on its own balance:
reverts unless `balances caller ≥ amount`, then reduces the balance and the
total supply by `amount`. -/
def burn (t : TokenState) (caller : Address) (amount : Nat) :
    Except GameError TokenState :=
  if amount ≤ t.balances caller then
    .ok { t with
      totalSupply := t.totalSupply - amount
      balances := fun a => if a = caller then t.balances a - amount else t.balances a }
  else .error .InsufficientBalance

/-- `ERC20.transferFrom(from_, to, amount)` with `spender` the caller:
OpenZeppelin `_spendAllowance` (revert on insufficient allowance, else
decrease it) followed by `_transfer` (revert on insufficient balance).
The `type(uint256).max` unlimited-allowance sentinel is not representable in
`Nat` and plays no role in any claim. -/
def transferFrom (t : TokenState) (spender from_ dst : Address) (amount : Nat) :
    Except GameError TokenState :=
  if amount ≤ t.allowances from_ spender then
    if amount ≤ t.balances from_ then
      let b1 : Address → Nat :=
        fun a => if a = from_ then t.balances a - amount else t.balances a
      .ok { t with
        allowances := fun a b =>
          if a = from_ ∧ b = spender then t.allowances a b - amount
          else t.allowances a b
        balances := fun a => if a = dst then b1 a + amount else b1 a }
    else .error .InsufficientBalance
  else .error .InsufficientAllowance

end DugToken

-- ---- AgentRegistry ----

/-- `AgentRegistry.AgentProfile`, restricted to the fields the game reads or
writes (`isAgent` via `getProfile`, the statistics via `recordGame`); the
inert identity fields (`agentId`, `name`, `wallet`, `registeredAt`) are
omitted because no claim mentions them. -/
structure AgentProfile where
  isAgent : Bool
  gamesPlayed : Nat
  totalScore : Nat
  bestScore : Nat
deriving DecidableEq, Repr

/-- `AgentRegistry.recordGame(player, score)`: increment `gamesPlayed`, add
to `totalScore`, raise `bestScore` when strictly exceeded. -/
def recordGame (profiles : Address → AgentProfile) (player : Address)
    (score : Nat) : Address → AgentProfile :=
  fun a =>
    if a = player then
      let p := profiles a
      { p with
        gamesPlayed := p.gamesPlayed + 1
        totalScore := p.totalScore + score
        bestScore := if p.bestScore < score then score else p.bestScore }
    else profiles a

-- ---- Leaderboard ----

/-- `ClawDugGame.ScoreEntry`. -/
structure ScoreEntry where
  player : Address
  score : Nat
  round : Nat
  kills : Nat
  isAgent : Bool
  timestamp : Nat
  sessionId : Bytes32
deriving DecidableEq, Repr

/-- The scan loop of `_updateLeaderboard`:
`for (i = 0; i < count; i++) if (score > lb[i].score) { insertAt = i; break; }` —
the first index whose stored score is strictly below the new score, if any. -/
def scanIdx (score : Nat) : List ScoreEntry → Option Nat
  | [] => none
  | x :: xs => if x.score < score then some 0 else (scanIdx score xs).map (· + 1)

/-- `ClawDugGame._updateLeaderboard` on the occupied-slots list:
scan the first `min count LB_SIZE` entries for the insertion point; if none is
found and the board is not full, append at index `count`; an `insertAt` of
`LB_SIZE` means no insertion. Inserting shifts every later entry one slot down
and drops the entry formerly at slot `LB_SIZE - 1`, i.e. the list is inserted
into and truncated to `LB_SIZE`. -/
def updateLeaderboard (lb : List ScoreEntry) (e : ScoreEntry) :
    List ScoreEntry :=
  let cnt := min lb.length LB_SIZE
  let insertAt :=
    match scanIdx e.score (lb.take cnt) with
    | some i => i
    | none => if cnt < LB_SIZE then cnt else LB_SIZE
  if insertAt < LB_SIZE then
    (lb.take insertAt ++ e :: lb.drop insertAt).take LB_SIZE
  else lb

-- ---- Epochs ----

/-- `ClawDugGame.Epoch`. -/
structure Epoch where
  id : Nat
  startTime : Nat
  endTime : Nat
  prizePool : Nat
  burnAmount : Nat
  treasuryAmount : Nat
  settled : Bool
  humanWinner : Address
  agentWinner : Address
  humanTopScore : Nat
  agentTopScore : Nat
deriving DecidableEq, Repr

/-- The all-zero `Epoch` record: the default value of the
`mapping(uint256 => Epoch)` at an unwritten key. -/
def emptyEpoch : Epoch :=
  { id := 0, startTime := 0, endTime := 0, prizePool := 0, burnAmount := 0
    treasuryAmount := 0, settled := false, humanWinner := 0, agentWinner := 0
    humanTopScore := 0, agentTopScore := 0 }

/-- The `EpochSettled` event payload. -/
structure EpochSettledEvent where
  epochId : Nat
  humanWinner : Address
  humanPrize : Nat
  agentWinner : Address
  agentPrize : Nat
deriving DecidableEq, Repr

-- ---- Game state ----

/-- The storage of `ClawDugGame` (together with the `DugToken` ledger and the
`AgentRegistry` profiles it interacts with). `gameAddr` is `address(this)`. -/
structure GameState where
  token : TokenState
  profiles : Address → AgentProfile
  scoreSigner : Address
  humanEntryFee : Nat
  agentEntryFee : Nat
  humanLeaderboard : List ScoreEntry
  agentLeaderboard : List ScoreEntry
  epochs : Nat → Epoch
  currentEpoch : Nat
  epochDuration : Nat
  usedSessions : Bytes32 → Bool
  treasury : Address
  treasuryBalance : Nat
  gameAddr : Address

/-- `ClawDugGame._startNewEpoch()`: increment `currentEpoch` and store a fresh
epoch record with `startTime = block.timestamp`,
`endTime = block.timestamp + epochDuration` and zeroed pools/winners. -/
def startNewEpoch (s : GameState) (now : Nat) : GameState :=
  let newId := s.currentEpoch + 1
  { s with
    currentEpoch := newId
    epochs := fun i =>
      if i = newId then
        { id := newId, startTime := now, endTime := now + s.epochDuration
          prizePool := 0, burnAmount := 0, treasuryAmount := 0
          settled := false, humanWinner := 0, agentWinner := 0
          humanTopScore := 0, agentTopScore := 0 }
      else s.epochs i }

/-- The state after the `ClawDugGame` constructor: zeroed storage (empty
leaderboards, no used session, an all-zero epoch mapping, zero token ledger)
with the configured signer and treasury, default fees `10 DUG`/`5 DUG` and
`epochDuration = 1 days`, followed by the constructor's `_startNewEpoch()`. -/
def initialState (signer treas gAddr : Address)
    (profs : Address → AgentProfile) (now : Nat) : GameState :=
  startNewEpoch
    { token := { totalSupply := 0, balances := fun _ => 0, allowances := fun _ _ => 0 }
      profiles := profs
      scoreSigner := signer
      humanEntryFee := 10 * 10 ^ 18
      agentEntryFee := 5 * 10 ^ 18
      humanLeaderboard := []
      agentLeaderboard := []
      epochs := fun _ => emptyEpoch
      currentEpoch := 0
      epochDuration := 86400
      usedSessions := fun _ => false
      treasury := treas
      treasuryBalance := 0
      gameAddr := gAddr } now

/-- `ClawDugGame._distributeEntryFee(fee)`: add the basis-point shares
`fee * PRIZE_POOL_BPS / BPS_DENOM`, `fee * BURN_BPS / BPS_DENOM`,
`fee * TREASURY_BPS / BPS_DENOM` to the current epoch's pools. -/
def distributeEntryFee (s : GameState) (fee : Nat) : GameState :=
  let ep := s.epochs s.currentEpoch
  let ep := { ep with
    prizePool := ep.prizePool + fee * PRIZE_POOL_BPS / BPS_DENOM
    burnAmount := ep.burnAmount + fee * BURN_BPS / BPS_DENOM
    treasuryAmount := ep.treasuryAmount + fee * TREASURY_BPS / BPS_DENOM }
  { s with epochs := fun i => if i = s.currentEpoch then ep else s.epochs i }

/-- The reward amount computed by `_mintGameplayRewards`:
`kills * REWARD_PER_KILL + round * REWARD_PER_ROUND` plus the cumulative
milestone bonuses at rounds 5, 10 and 20. -/
def gameplayReward (kills round : Nat) : Nat :=
  let total := kills * REWARD_PER_KILL + round * REWARD_PER_ROUND
  let total := if 5 ≤ round then total + REWARD_MILESTONE else total
  let total := if 10 ≤ round then total + REWARD_MILESTONE * 2 else total
  if 20 ≤ round then total + REWARD_MILESTONE * 5 else total

/-- `ClawDugGame._mintGameplayRewards(player, kills, round)`: mint the
computed total to the player when it is positive (the mint may revert with
`SupplyExceeded`). -/
def mintGameplayRewards (t : TokenState) (player : Address)
    (kills round : Nat) : Except GameError TokenState :=
  let total := gameplayReward kills round
  if 0 < total then DugToken.mint t player total else .ok t

/-- `ClawDugGame.submitScore(score, round, kills, sessionId, signedAt,
signature)` called by `caller` at `block.timestamp = now`; `recovered` is the
address the signature recovers to (see the header note on ECDSA). The steps
mirror the source in order: (1) replay check, freshness check;
(2) signature check; (3) mark session used; (4) read `isAgent`;
(5) fee transfer and split, silently skipped when the allowance is short;
(6) `registry.recordGame`; (7) gameplay reward mint; (8) leaderboard update;
(9) epoch top-score update. -/
def submitScore (s : GameState) (caller : Address) (score round kills : Nat)
    (sessionId : Bytes32) (signedAt : Nat) (recovered : Address) (now : Nat) :
    Except GameError GameState :=
  -- 1. Replay protection: `require(!usedSessions[sessionId])`,
  --    `require(block.timestamp <= signedAt + 5 minutes)`.
  if s.usedSessions sessionId then .error .ReplayedSession
  else if signedAt + FRESHNESS_WINDOW < now then .error .ExpiredSignature
  -- 2. `require(recovered == scoreSigner)`.
  else if recovered ≠ s.scoreSigner then .error .InvalidSignature
  else
    -- 3. `usedSessions[sessionId] = true`.
    let s1 := { s with
      usedSessions := fun b => if b = sessionId then true else s.usedSessions b }
    -- 4. `isAgent` from the registry profile.
    let isAgent := (s1.profiles caller).isAgent
    -- 5. Entry fee, attempted only when the allowance covers it.
    let fee := if isAgent then s1.agentEntryFee else s1.humanEntryFee
    let afterFee : Except GameError GameState :=
      if fee ≤ s1.token.allowances caller s1.gameAddr then
        match DugToken.transferFrom s1.token s1.gameAddr caller s1.gameAddr fee with
        | .error e => .error e
        | .ok t => .ok (distributeEntryFee { s1 with token := t } fee)
      else .ok s1
    match afterFee with
    | .error e => .error e
    | .ok s2 =>
      -- 6. `registry.recordGame(msg.sender, score)`.
      let s3 := { s2 with profiles := recordGame s2.profiles caller score }
      -- 7. Gameplay rewards.
      match mintGameplayRewards s3.token caller kills round with
      | .error e => .error e
      | .ok t2 =>
        let s4 := { s3 with token := t2 }
        -- 8. Leaderboard update for the category.
        let entry : ScoreEntry :=
          { player := caller, score := score, round := round, kills := kills
            isAgent := isAgent, timestamp := now, sessionId := sessionId }
        let s5 :=
          if isAgent then
            { s4 with agentLeaderboard := updateLeaderboard s4.agentLeaderboard entry }
          else
            { s4 with humanLeaderboard := updateLeaderboard s4.humanLeaderboard entry }
        -- 9. Epoch top scores (strict improvement only).
        let ep := s5.epochs s5.currentEpoch
        let ep :=
          if isAgent ∧ ep.agentTopScore < score then
            { ep with agentTopScore := score, agentWinner := caller }
          else ep
        let ep :=
          if ¬isAgent ∧ ep.humanTopScore < score then
            { ep with humanTopScore := score, humanWinner := caller }
          else ep
        .ok { s5 with
          epochs := fun i => if i = s5.currentEpoch then ep else s5.epochs i }

/-- The prize block of `settleEpoch` (`if (epoch.prizePool > 0) { ... }`):
the four conditional mints in source order, threading the token ledger and
the reported `humanPrize`/`agentPrize`. Note that in the sole-winner cases
the code re-mints `half` (comment `// already minted half`) while reporting
the full `prizePool`. -/
def settlePrizes (t : TokenState) (ep : Epoch) :
    Except GameError (TokenState × Nat × Nat) :=
  if 0 < ep.prizePool then
    let half := ep.prizePool / 2
    match (if ep.humanWinner ≠ 0 then DugToken.mint t ep.humanWinner half else .ok t) with
    | .error e => .error e
    | .ok t1 =>
      let humanPrize := if ep.humanWinner ≠ 0 then half else 0
      match (if ep.agentWinner ≠ 0 then DugToken.mint t1 ep.agentWinner half else .ok t1) with
      | .error e => .error e
      | .ok t2 =>
        let agentPrize := if ep.agentWinner ≠ 0 then half else 0
        match (if ep.humanWinner = 0 ∧ ep.agentWinner ≠ 0 then
                 DugToken.mint t2 ep.agentWinner half else .ok t2) with
        | .error e => .error e
        | .ok t3 =>
          let agentPrize :=
            if ep.humanWinner = 0 ∧ ep.agentWinner ≠ 0 then ep.prizePool else agentPrize
          match (if ep.agentWinner = 0 ∧ ep.humanWinner ≠ 0 then
                   DugToken.mint t3 ep.humanWinner half else .ok t3) with
          | .error e => .error e
          | .ok t4 =>
            let humanPrize :=
              if ep.agentWinner = 0 ∧ ep.humanWinner ≠ 0 then ep.prizePool else humanPrize
            .ok (t4, humanPrize, agentPrize)
  else .ok (t, 0, 0)

/-- `ClawDugGame.settleEpoch()` at `block.timestamp = now`: time and
settled-flag checks, prize block, burn block (mint to the contract, then
burn), treasury block, `EpochSettled` event, then `_startNewEpoch()`.
Returns the new state and the emitted `EpochSettled` payload. -/
def settleEpoch (s : GameState) (now : Nat) :
    Except GameError (GameState × EpochSettledEvent) :=
  let ep := s.epochs s.currentEpoch
  if now < ep.endTime then .error .EpochNotEnded
  else if ep.settled then .error .AlreadySettled
  else
    let ep := { ep with settled := true }
    match settlePrizes s.token ep with
    | .error e => .error e
    | .ok (t1, humanPrize, agentPrize) =>
      let burnStep : Except GameError TokenState :=
        if 0 < ep.burnAmount then
          match DugToken.mint t1 s.gameAddr ep.burnAmount with
          | .error e => .error e
          | .ok t => DugToken.burn t s.gameAddr ep.burnAmount
        else .ok t1
      match burnStep with
      | .error e => .error e
      | .ok t2 =>
        match (if 0 < ep.treasuryAmount then
                 DugToken.mint t2 s.treasury ep.treasuryAmount else .ok t2) with
        | .error e => .error e
        | .ok t3 =>
          let tb :=
            if 0 < ep.treasuryAmount then s.treasuryBalance + ep.treasuryAmount
            else s.treasuryBalance
          let ev : EpochSettledEvent :=
            { epochId := s.currentEpoch
              humanWinner := ep.humanWinner, humanPrize := humanPrize
              agentWinner := ep.agentWinner, agentPrize := agentPrize }
          let s1 := { s with
            token := t3
            treasuryBalance := tb
            epochs := fun i => if i = s.currentEpoch then ep else s.epochs i }
          .ok (startNewEpoch s1 now, ev)

end ClawDug

namespace ClawDug

-- ============================================================
--  Leaderboard theory
-- ============================================================

/-- The ordering the leaderboards maintain: scores are non-increasing from
rank 0 downwards. -/
def scoreGe (a b : ScoreEntry) : Prop := b.score ≤ a.score

/-- The shape invariant of one leaderboard: sorted non-increasing by score,
at most `LB_SIZE` occupied entries, no duplicated `sessionId`. -/
def Sorted20 (lb : List ScoreEntry) : Prop :=
  List.Pairwise scoreGe lb ∧ lb.length ≤ LB_SIZE ∧
    (lb.map ScoreEntry.sessionId).Nodup

theorem scanIdx_eq_none (sc : Nat) (lb : List ScoreEntry)
    (h : ∀ x ∈ lb, sc ≤ x.score) : scanIdx sc lb = none := by
  induction lb with
  | nil => rfl
  | cons x xs ih =>
    have hx := h x (by simp)
    simp only [scanIdx, if_neg (by omega : ¬ x.score < sc)]
    rw [ih (fun y hy => h y (by simp [hy]))]
    rfl

theorem scanIdx_none_mem (sc : Nat) (lb : List ScoreEntry)
    (h : scanIdx sc lb = none) : ∀ x ∈ lb, sc ≤ x.score := by
  induction lb with
  | nil => simp
  | cons x xs ih =>
    by_cases hx : x.score < sc
    · simp [scanIdx, hx] at h
    · simp only [scanIdx, if_neg hx] at h
      intro y hy
      rcases List.mem_cons.mp hy with rfl | hy'
      · omega
      · exact ih (by cases hsc : scanIdx sc xs <;> simp [hsc] at h ⊢) y hy'

/-- Decomposition of a successful scan: the board splits at the found index
into a prefix of entries with score at least `sc` and a first entry with
score strictly below `sc`. -/
theorem scanIdx_some (sc : Nat) (lb : List ScoreEntry) (i : Nat)
    (h : scanIdx sc lb = some i) :
    ∃ pre x post, lb = pre ++ x :: post ∧ pre.length = i ∧
      (∀ y ∈ pre, sc ≤ y.score) ∧ x.score < sc := by
  induction lb generalizing i with
  | nil => simp [scanIdx] at h
  | cons x xs ih =>
    by_cases hx : x.score < sc
    · simp only [scanIdx, if_pos hx, Option.some.injEq] at h
      exact ⟨[], x, xs, by simp, by simp [← h], by simp, hx⟩
    · simp only [scanIdx, if_neg hx] at h
      cases hsc : scanIdx sc xs with
      | none => simp [hsc] at h
      | some j =>
        simp only [hsc, Option.map_some', Option.some.injEq] at h
        obtain ⟨pre, y, post, hsplit, hlen, hpre, hy⟩ := ih j hsc
        refine ⟨x :: pre, y, post, by simp [hsplit], by simp [hlen, ← h], ?_, hy⟩
        intro z hz
        rcases List.mem_cons.mp hz with rfl | hz'
        · omega
        · exact hpre z hz'

theorem takeWhile_append_cons (p : ScoreEntry → Bool) (pre : List ScoreEntry)
    (x : ScoreEntry) (post : List ScoreEntry)
    (hpre : ∀ y ∈ pre, p y = true) (hx : p x = false) :
    (pre ++ x :: post).takeWhile p = pre := by
  induction pre with
  | nil => simp [List.takeWhile, hx]
  | cons z zs ih =>
    have hz := hpre z (by simp)
    simp only [List.cons_append, List.takeWhile, hz, List.append_eq]
    rw [ih (fun y hy => hpre y (by simp [hy]))]

end ClawDug

namespace ClawDug

theorem takeWhile_all (p : ScoreEntry → Bool) (l : List ScoreEntry)
    (h : ∀ y ∈ l, p y = true) : l.takeWhile p = l := by
  induction l with
  | nil => rfl
  | cons x xs ih =>
    simp only [List.takeWhile, h x (by simp)]
    rw [ih (fun y hy => h y (by simp [hy]))]

/-- `updateLeaderboard` when the scan finds an insertion index: insert there
and truncate to capacity. -/
theorem updateLeaderboard_scan_some (lb : List ScoreEntry) (e : ScoreEntry)
    (i : Nat) (hlen : lb.length ≤ LB_SIZE)
    (hscan : scanIdx e.score lb = some i) :
    updateLeaderboard lb e = (lb.take i ++ e :: lb.drop i).take LB_SIZE := by
  obtain ⟨pre, x, post, hsplit, hlenp, -, -⟩ := scanIdx_some _ _ _ hscan
  have hi : i < lb.length := by subst hsplit; simp [← hlenp]
  unfold updateLeaderboard
  simp only [Nat.min_eq_left hlen, List.take_length, hscan]
  simp only [if_pos (by omega : i < LB_SIZE)]

/-- `updateLeaderboard` when the scan finds nothing and the board is short:
append at the end. -/
theorem updateLeaderboard_scan_none_short (lb : List ScoreEntry)
    (e : ScoreEntry) (hlen : lb.length < LB_SIZE)
    (hscan : scanIdx e.score lb = none) :
    updateLeaderboard lb e = lb ++ [e] := by
  unfold updateLeaderboard
  simp only [Nat.min_eq_left (le_of_lt hlen), List.take_length, hscan]
  simp only [if_pos hlen, List.take_length, List.drop_length]
  rw [List.take_of_length_le (by simp; omega)]

/-- `updateLeaderboard` when the scan finds nothing on a full board: the
submission is discarded. -/
theorem updateLeaderboard_scan_none_full (lb : List ScoreEntry)
    (e : ScoreEntry) (hlen : lb.length = LB_SIZE)
    (hscan : scanIdx e.score lb = none) :
    updateLeaderboard lb e = lb := by
  unfold updateLeaderboard
  simp only [Nat.min_eq_left (le_of_eq hlen), List.take_length, hscan]
  simp [hlen]

/-- Everything on the updated board is the new entry or was on the board. -/
theorem updateLeaderboard_mem (lb : List ScoreEntry) (e : ScoreEntry)
    (hlen : lb.length ≤ LB_SIZE) :
    ∀ x ∈ updateLeaderboard lb e, x = e ∨ x ∈ lb := by
  cases hscan : scanIdx e.score lb with
  | some i =>
    rw [updateLeaderboard_scan_some lb e i hlen hscan]
    intro x hx
    have hx' := (List.take_sublist _ _).mem hx
    rcases List.mem_append.mp hx' with h1 | h2
    · exact Or.inr ((List.take_sublist _ _).mem h1)
    · rcases List.mem_cons.mp h2 with rfl | h3
      · exact Or.inl rfl
      · exact Or.inr ((List.drop_sublist _ _).mem h3)
  | none =>
    by_cases hl : lb.length < LB_SIZE
    · rw [updateLeaderboard_scan_none_short lb e hl hscan]
      intro x hx
      rcases List.mem_append.mp hx with h1 | h2
      · exact Or.inr h1
      · exact Or.inl (List.mem_singleton.mp h2)
    · rw [updateLeaderboard_scan_none_full lb e (by omega) hscan]
      exact fun x hx => Or.inr hx

/-- Insertion preserves the shape invariant, provided the inserted entry's
sessionId is not already on the board. -/
theorem updateLeaderboard_sorted20 (lb : List ScoreEntry) (e : ScoreEntry)
    (h : Sorted20 lb) (hf : e.sessionId ∉ lb.map ScoreEntry.sessionId) :
    Sorted20 (updateLeaderboard lb e) := by
  obtain ⟨hsort, hlen, hnodup⟩ := h
  cases hscan : scanIdx e.score lb with
  | some i =>
    rw [updateLeaderboard_scan_some lb e i hlen hscan]
    obtain ⟨pre, x, post, hsplit, hlenp, hpre, hx⟩ := scanIdx_some _ _ _ hscan
    subst hsplit
    rw [List.take_left' hlenp, List.drop_left' hlenp]
    refine ⟨?_, ?_, ?_⟩
    · refine List.Pairwise.sublist (List.take_sublist _ _) ?_
      rw [List.pairwise_append] at hsort ⊢
      obtain ⟨hp1, hp2, hp3⟩ := hsort
      refine ⟨hp1, ?_, ?_⟩
      · rw [List.pairwise_cons]
        have hp2' := List.pairwise_cons.mp hp2
        refine ⟨?_, hp2⟩
        intro b hb
        rcases List.mem_cons.mp hb with rfl | hb'
        · exact le_of_lt hx
        · exact le_trans (hp2'.1 b hb') (le_of_lt hx)
      · intro a ha b hb
        rcases List.mem_cons.mp hb with rfl | hb'
        · exact hpre a ha
        · exact hp3 a ha b hb'
    · simp [List.length_take]
    · have hperm : (pre ++ e :: x :: post).Perm (e :: (pre ++ x :: post)) :=
        List.perm_middle
      have hnd : ((pre ++ e :: x :: post).map ScoreEntry.sessionId).Nodup := by
        refine ((hperm.map ScoreEntry.sessionId).nodup_iff).mpr ?_
        simpa using And.intro hf hnodup
      rw [List.map_take]
      exact hnd.sublist (List.take_sublist _ _)
  | none =>
    have hmem := scanIdx_none_mem _ _ hscan
    by_cases hl : lb.length < LB_SIZE
    · rw [updateLeaderboard_scan_none_short lb e hl hscan]
      refine ⟨?_, by simp; omega, ?_⟩
      · rw [List.pairwise_append]
        refine ⟨hsort, by simp, fun a ha b hb => ?_⟩
        rcases List.mem_singleton.mp hb with rfl
        exact hmem a ha
      · simp only [List.map_append, List.map_cons, List.map_nil]
        rw [List.nodup_append]
        refine ⟨hnodup, by simp, fun a ha hb => ?_⟩
        exact hf ((List.mem_singleton.mp hb) ▸ ha)
    · rw [updateLeaderboard_scan_none_full lb e (by omega) hscan]
      exact ⟨hsort, hlen, hnodup⟩

/-- Ties never displace: the block of incumbents whose score is at least the
new score is left in place, as a prefix of the updated board. -/
theorem updateLeaderboard_stable (lb : List ScoreEntry) (e : ScoreEntry)
    (hlen : lb.length ≤ LB_SIZE) :
    ∃ rest, updateLeaderboard lb e =
      lb.takeWhile (fun x => decide (e.score ≤ x.score)) ++ rest := by
  cases hscan : scanIdx e.score lb with
  | some i =>
    rw [updateLeaderboard_scan_some lb e i hlen hscan]
    obtain ⟨pre, x, post, hsplit, hlenp, hpre, hx⟩ := scanIdx_some _ _ _ hscan
    subst hsplit
    rw [List.take_left' hlenp, List.drop_left' hlenp,
      takeWhile_append_cons _ pre x post
        (fun y hy => decide_eq_true (hpre y hy))
        (by simp; omega)]
    rw [List.take_append_eq_append_take,
      List.take_of_length_le (le_trans (le_of_eq hlenp)
        (by have := List.length_append pre (x :: post); omega))]
    exact ⟨_, rfl⟩
  | none =>
    have hmem := scanIdx_none_mem _ _ hscan
    rw [takeWhile_all _ _ (fun y hy => decide_eq_true (hmem y hy))]
    by_cases hl : lb.length < LB_SIZE
    · rw [updateLeaderboard_scan_none_short lb e hl hscan]
      exact ⟨[e], rfl⟩
    · rw [updateLeaderboard_scan_none_full lb e (by omega) hscan]
      exact ⟨[], by simp⟩

/-- A full board discards a submission that strictly exceeds no incumbent. -/
theorem updateLeaderboard_full_discard (lb : List ScoreEntry) (e : ScoreEntry)
    (hlen : lb.length = LB_SIZE) (h : ∀ x ∈ lb, e.score ≤ x.score) :
    updateLeaderboard lb e = lb :=
  updateLeaderboard_scan_none_full lb e hlen (scanIdx_eq_none _ _ h)

end ClawDug

namespace ClawDug

-- ============================================================
--  Token operation characterizations
-- ============================================================

theorem mint_ok_iff (t : TokenState) (dst : Address) (amt : Nat)
    (t' : TokenState) :
    DugToken.mint t dst amt = .ok t' ↔
      t.totalSupply + amt ≤ MAX_SUPPLY ∧
      t' = { t with
        totalSupply := t.totalSupply + amt
        balances := fun a => if a = dst then t.balances a + amt else t.balances a } := by
  unfold DugToken.mint
  split
  next hc =>
    rw [Except.ok.injEq]
    exact ⟨fun he => ⟨hc, he.symm⟩, fun hp => hp.2.symm⟩
  next hc =>
    exact ⟨fun he => Except.noConfusion he, fun hp => absurd hp.1 hc⟩

theorem burn_ok_iff (t : TokenState) (caller : Address) (amt : Nat)
    (t' : TokenState) :
    DugToken.burn t caller amt = .ok t' ↔
      amt ≤ t.balances caller ∧
      t' = { t with
        totalSupply := t.totalSupply - amt
        balances := fun a => if a = caller then t.balances a - amt else t.balances a } := by
  unfold DugToken.burn
  split
  next hc =>
    rw [Except.ok.injEq]
    exact ⟨fun he => ⟨hc, he.symm⟩, fun hp => hp.2.symm⟩
  next hc =>
    exact ⟨fun he => Except.noConfusion he, fun hp => absurd hp.1 hc⟩

theorem transferFrom_ok_supply (t : TokenState) (spender from_ dst : Address)
    (amt : Nat) (t' : TokenState)
    (h : DugToken.transferFrom t spender from_ dst amt = .ok t') :
    t'.totalSupply = t.totalSupply := by
  unfold DugToken.transferFrom at h
  split at h
  · split at h
    · rw [← (Except.ok.injEq _ _).mp h]
    · simp at h
  · simp at h

-- ============================================================
--  Entry-fee split arithmetic (C3 groundwork)
-- ============================================================

/-- The exact size of the three basis-point shares: together they recover the
fee exactly when the fee is a multiple of 10 base units, and otherwise fall
short (truncation loses the remainder, it is never gained back). -/
theorem feeSplit_sum (F : Nat) :
    F * PRIZE_POOL_BPS / BPS_DENOM + F * BURN_BPS / BPS_DENOM +
        F * TREASURY_BPS / BPS_DENOM ≤ F ∧
      (F * PRIZE_POOL_BPS / BPS_DENOM + F * BURN_BPS / BPS_DENOM +
          F * TREASURY_BPS / BPS_DENOM = F ↔ F % 10 = 0) := by
  unfold PRIZE_POOL_BPS BURN_BPS TREASURY_BPS BPS_DENOM
  have h7 : F * 7000 / 10000 = F * 7 / 10 := by
    rw [show (7000:Nat) = 7 * 1000 from rfl, show (10000:Nat) = 10 * 1000 from rfl,
      ← Nat.mul_assoc, Nat.mul_div_mul_right]
    omega
  have h1 : F * 1000 / 10000 = F / 10 := by
    rw [show (10000:Nat) = 10 * 1000 from rfl, Nat.mul_div_mul_right]
    omega
  have h2 : F * 2000 / 10000 = F * 2 / 10 := by
    rw [show (2000:Nat) = 2 * 1000 from rfl, show (10000:Nat) = 10 * 1000 from rfl,
      ← Nat.mul_assoc, Nat.mul_div_mul_right]
    omega
  rw [h7, h1, h2]
  omega

/-- How `_distributeEntryFee` moves the three pool fields of the current
epoch (and touches nothing else). -/
theorem distributeEntryFee_spec (s : GameState) (fee : Nat) :
    ((distributeEntryFee s fee).epochs s.currentEpoch).prizePool =
        (s.epochs s.currentEpoch).prizePool + fee * PRIZE_POOL_BPS / BPS_DENOM ∧
      ((distributeEntryFee s fee).epochs s.currentEpoch).burnAmount =
        (s.epochs s.currentEpoch).burnAmount + fee * BURN_BPS / BPS_DENOM ∧
      ((distributeEntryFee s fee).epochs s.currentEpoch).treasuryAmount =
        (s.epochs s.currentEpoch).treasuryAmount + fee * TREASURY_BPS / BPS_DENOM := by
  unfold distributeEntryFee
  simp

end ClawDug

namespace ClawDug

/-- What a successful `submitScore` guarantees structurally: the session was
fresh and is now consumed, the total supply stayed within bounds or
unchanged, the epoch duration is untouched, and exactly the caller's
category board was updated with the submitted entry. -/
theorem submitScore_ok_spec (s : GameState) (caller : Address)
    (score round kills : Nat) (sessionId : Bytes32) (signedAt : Nat)
    (recovered : Address) (now : Nat) (s' : GameState)
    (h : submitScore s caller score round kills sessionId signedAt recovered now = .ok s') :
    s.usedSessions sessionId = false ∧
    s'.usedSessions = (fun b => if b = sessionId then true else s.usedSessions b) ∧
    (s'.token.totalSupply ≤ MAX_SUPPLY ∨ s'.token.totalSupply = s.token.totalSupply) ∧
    s'.epochDuration = s.epochDuration ∧
    ((s.profiles caller).isAgent = true →
      s'.agentLeaderboard = updateLeaderboard s.agentLeaderboard
        { player := caller, score := score, round := round, kills := kills
          isAgent := (s.profiles caller).isAgent, timestamp := now, sessionId := sessionId } ∧
      s'.humanLeaderboard = s.humanLeaderboard) ∧
    ((s.profiles caller).isAgent = false →
      s'.humanLeaderboard = updateLeaderboard s.humanLeaderboard
        { player := caller, score := score, round := round, kills := kills
          isAgent := (s.profiles caller).isAgent, timestamp := now, sessionId := sessionId } ∧
      s'.agentLeaderboard = s.agentLeaderboard) := by
  simp only [submitScore] at h
  split at h
  next hused => exact Except.noConfusion h
  next hused =>
  split at h
  next hexp => exact Except.noConfusion h
  next hexp =>
  split at h
  next hsig => exact Except.noConfusion h
  next hsig =>
  split at h
  next e heq => exact Except.noConfusion h
  next s2 heq =>
  have hs2 : s2.usedSessions = (fun b => if b = sessionId then true else s.usedSessions b) ∧
      s2.humanLeaderboard = s.humanLeaderboard ∧
      s2.agentLeaderboard = s.agentLeaderboard ∧
      s2.token.totalSupply = s.token.totalSupply ∧
      s2.epochDuration = s.epochDuration := by
    split at heq <;>
      (split at heq
       · split at heq
         · exact Except.noConfusion heq
         · rename_i t ht
           injection heq with heq'
           subst heq'
           exact ⟨rfl, rfl, rfl, transferFrom_ok_supply _ _ _ _ _ _ ht, rfl⟩
       · injection heq with heq'
         subst heq'
         exact ⟨rfl, rfl, rfl, rfl, rfl⟩)
  obtain ⟨hu2, hlbH, hlbA, hsup2, hdur2⟩ := hs2
  split at h
  next e ht2 => exact Except.noConfusion h
  next t2 ht2 =>
  injection h with h'
  subst h'
  have hsupply : t2.totalSupply ≤ MAX_SUPPLY ∨ t2.totalSupply = s.token.totalSupply := by
    simp only [mintGameplayRewards] at ht2
    split at ht2
    · rcases (mint_ok_iff _ _ _ _).mp ht2 with ⟨hle, rfl⟩
      exact Or.inl hle
    · injection ht2 with ht2'
      rw [← ht2']
      exact Or.inr hsup2
  refine ⟨by simpa using hused, ?_, ?_, ?_, ?_, ?_⟩
  · by_cases hAg : (s.profiles caller).isAgent = true <;> simp [hAg, hu2]
  · by_cases hAg : (s.profiles caller).isAgent = true <;> simpa [hAg] using hsupply
  · by_cases hAg : (s.profiles caller).isAgent = true <;> simp [hAg, hdur2]
  · intro hAg
    simp [hAg, hlbA, hlbH]
  · intro hAg
    simp [hAg, hlbA, hlbH]

end ClawDug

namespace ClawDug

theorem mintMaybe_supply (t t' : TokenState) (c : Prop) [Decidable c]
    (dst : Address) (amt : Nat)
    (h : (if c then DugToken.mint t dst amt else .ok t) = .ok t') :
    t'.totalSupply ≤ MAX_SUPPLY ∨ t'.totalSupply = t.totalSupply := by
  split at h
  · rcases (mint_ok_iff _ _ _ _).mp h with ⟨hle, rfl⟩
    exact Or.inl hle
  · injection h with h'
    rw [← h']
    exact Or.inr rfl

theorem supply_step_trans {a b c : Nat} (h1 : a ≤ MAX_SUPPLY ∨ a = b)
    (h2 : b ≤ MAX_SUPPLY ∨ b = c) : a ≤ MAX_SUPPLY ∨ a = c := by
  rcases h1 with h | rfl
  · exact Or.inl h
  · exact h2

/-- The prize block never pushes the supply beyond the cap (each of its mints
is guarded), and minting nothing leaves the supply unchanged. -/
theorem settlePrizes_supply (t : TokenState) (ep : Epoch) (t' : TokenState)
    (hp ap : Nat) (h : settlePrizes t ep = .ok (t', hp, ap)) :
    t'.totalSupply ≤ MAX_SUPPLY ∨ t'.totalSupply = t.totalSupply := by
  simp only [settlePrizes] at h
  split at h
  · split at h
    · exact Except.noConfusion h
    · rename_i t1 h1
      split at h
      · exact Except.noConfusion h
      · rename_i t2 h2
        split at h
        · exact Except.noConfusion h
        · rename_i t3 h3
          split at h
          · exact Except.noConfusion h
          · rename_i t4 h4
            injection h with h'
            rw [← show t4 = t' from congrArg Prod.fst h']
            exact supply_step_trans (mintMaybe_supply _ _ _ _ _ h4)
              (supply_step_trans (mintMaybe_supply _ _ _ _ _ h3)
                (supply_step_trans (mintMaybe_supply _ _ _ _ _ h2)
                  (mintMaybe_supply _ _ _ _ _ h1)))
  · injection h with h'
    rw [← show t = t' from congrArg Prod.fst h']
    exact Or.inr rfl

/-- The burn block (`mint to the contract, then burn the same amount`) is a
no-op on supply, balances and allowances when it succeeds. -/
theorem burnBlock_spec (t : TokenState) (gA : Address) (amt : Nat)
    (t' : TokenState)
    (h : (if 0 < amt then
            (match DugToken.mint t gA amt with
             | Except.error e => (Except.error e : Except GameError TokenState)
             | Except.ok tt => DugToken.burn tt gA amt)
          else .ok t) = .ok t') :
    t'.totalSupply = t.totalSupply ∧ (∀ a, t'.balances a = t.balances a) ∧
      t'.allowances = t.allowances := by
  split at h
  · split at h
    · exact Except.noConfusion h
    · rename_i tt hmint
      rcases (mint_ok_iff _ _ _ _).mp hmint with ⟨hle, rfl⟩
      rcases (burn_ok_iff _ _ _ _).mp h with ⟨hble, rfl⟩
      refine ⟨by simp, ?_, rfl⟩
      intro a
      by_cases ha : a = gA <;> simp [ha]
  · injection h with h'
    rw [← h']
    exact ⟨rfl, fun _ => rfl, rfl⟩

end ClawDug

namespace ClawDug

/-- What a successful `settleEpoch` guarantees structurally: the guards held,
the leaderboards/sessions are untouched, the settled epoch is recorded, a
fresh epoch `currentEpoch + 1` with window `[now, now + epochDuration]` is
opened, and the supply stays capped or unchanged. -/
theorem settleEpoch_ok_spec (s : GameState) (now : Nat) (s' : GameState)
    (ev : EpochSettledEvent)
    (h : settleEpoch s now = .ok (s', ev)) :
    s'.humanLeaderboard = s.humanLeaderboard ∧
    s'.agentLeaderboard = s.agentLeaderboard ∧
    s'.usedSessions = s.usedSessions ∧
    s'.currentEpoch = s.currentEpoch + 1 ∧
    s'.epochDuration = s.epochDuration ∧
    s'.profiles = s.profiles ∧
    (s'.token.totalSupply ≤ MAX_SUPPLY ∨ s'.token.totalSupply = s.token.totalSupply) ∧
    s'.epochs (s.currentEpoch + 1) =
      { id := s.currentEpoch + 1, startTime := now, endTime := now + s.epochDuration
        prizePool := 0, burnAmount := 0, treasuryAmount := 0, settled := false
        humanWinner := 0, agentWinner := 0, humanTopScore := 0, agentTopScore := 0 } ∧
    (s'.epochs s.currentEpoch).settled = true ∧
    (s.epochs s.currentEpoch).endTime ≤ now ∧
    (s.epochs s.currentEpoch).settled = false := by
  simp only [settleEpoch] at h
  split at h
  next hend => exact Except.noConfusion h
  next hend =>
  split at h
  next hset => exact Except.noConfusion h
  next hset =>
  split at h
  next e h1 => exact Except.noConfusion h
  next t1 hp ap h1 =>
  split at h
  next e h2 => exact Except.noConfusion h
  next t2 h2 =>
  split at h
  next e h3 => exact Except.noConfusion h
  next t3 h3 =>
  injection h with h'
  obtain ⟨hs', hev⟩ := (Prod.mk.injEq _ _ _ _).mp h'
  subst hs'
  have hsup : t3.totalSupply ≤ MAX_SUPPLY ∨ t3.totalSupply = s.token.totalSupply := by
    refine supply_step_trans (mintMaybe_supply _ _ _ _ _ h3) ?_
    have hb := (burnBlock_spec _ _ _ _ h2).1
    rw [hb]
    exact settlePrizes_supply _ _ _ _ _ h1
  refine ⟨rfl, rfl, rfl, rfl, rfl, rfl, ?_, ?_, ?_, by omega, by simpa using hset⟩
  · simpa [startNewEpoch] using hsup
  · simp [startNewEpoch]
  · simp [startNewEpoch, Nat.ne_of_gt (Nat.lt_succ_self s.currentEpoch)]

end ClawDug

namespace ClawDug

theorem mintMaybe_balances (t t' : TokenState) (c : Prop) [Decidable c]
    (dst : Address) (amt : Nat)
    (h : (if c then DugToken.mint t dst amt else .ok t) = .ok t') :
    ∀ a, a ≠ dst → t'.balances a = t.balances a := by
  intro a ha
  split at h
  · rcases (mint_ok_iff _ _ _ _).mp h with ⟨-, rfl⟩
    simp [ha]
  · injection h with h'
    rw [← h']

/-- The prize block when only the agent category has a winner: the event
prizes are `0` and the full pool, but the winner's balance grows by
`half + half = 2 * (prizePool / 2)` — one wei short of the pool when the
pool is odd. -/
theorem settlePrizes_agent_only (t : TokenState) (ep : Epoch) (t' : TokenState)
    (hp ap : Nat) (h0 : ep.humanWinner = 0) (ha : ep.agentWinner ≠ 0)
    (hpz : 0 < ep.prizePool) (h : settlePrizes t ep = .ok (t', hp, ap)) :
    hp = 0 ∧ ap = ep.prizePool ∧
    t'.balances ep.agentWinner =
      t.balances ep.agentWinner + 2 * (ep.prizePool / 2) ∧
    (∀ a, a ≠ ep.agentWinner → t'.balances a = t.balances a) ∧
    t'.totalSupply = t.totalSupply + 2 * (ep.prizePool / 2) := by
  have hnh : ¬ (ep.humanWinner ≠ 0) := by simp [h0]
  have hc3 : ep.humanWinner = 0 ∧ ep.agentWinner ≠ 0 := ⟨h0, ha⟩
  have hc4 : ¬ (ep.agentWinner = 0 ∧ ep.humanWinner ≠ 0) := fun hc => ha hc.1
  simp only [settlePrizes, if_pos hpz, if_neg hnh, if_pos ha, if_pos hc3,
    if_neg hc4] at h
  split at h
  next e h2 => exact Except.noConfusion h
  next t2 h2 =>
  split at h
  next e h3 => exact Except.noConfusion h
  next t3 h3 =>
  injection h with h'
  obtain ⟨ht', hrest⟩ := (Prod.mk.injEq _ _ _ _).mp h'
  obtain ⟨hhp, hap⟩ := (Prod.mk.injEq _ _ _ _).mp hrest
  subst ht'
  rcases (mint_ok_iff _ _ _ _).mp h2 with ⟨-, rfl⟩
  rcases (mint_ok_iff _ _ _ _).mp h3 with ⟨-, rfl⟩
  refine ⟨hhp.symm, hap.symm, by simp; omega, ?_, by simp; omega⟩
  intro a haw
  simp [haw]

/-- The prize block when only the human category has a winner (symmetric). -/
theorem settlePrizes_human_only (t : TokenState) (ep : Epoch) (t' : TokenState)
    (hp ap : Nat) (h0 : ep.agentWinner = 0) (hh : ep.humanWinner ≠ 0)
    (hpz : 0 < ep.prizePool) (h : settlePrizes t ep = .ok (t', hp, ap)) :
    ap = 0 ∧ hp = ep.prizePool ∧
    t'.balances ep.humanWinner =
      t.balances ep.humanWinner + 2 * (ep.prizePool / 2) ∧
    (∀ a, a ≠ ep.humanWinner → t'.balances a = t.balances a) ∧
    t'.totalSupply = t.totalSupply + 2 * (ep.prizePool / 2) := by
  have hna : ¬ (ep.agentWinner ≠ 0) := by simp [h0]
  have hc3 : ¬ (ep.humanWinner = 0 ∧ ep.agentWinner ≠ 0) := fun hc => hh hc.1
  have hc4 : ep.agentWinner = 0 ∧ ep.humanWinner ≠ 0 := ⟨h0, hh⟩
  simp only [settlePrizes, if_pos hpz, if_neg hna, if_pos hh, if_neg hc3,
    if_pos hc4] at h
  split at h
  next e h2 => exact Except.noConfusion h
  next t2 h2 =>
  split at h
  next e h3 => exact Except.noConfusion h
  next t3 h3 =>
  injection h with h'
  obtain ⟨ht', hrest⟩ := (Prod.mk.injEq _ _ _ _).mp h'
  obtain ⟨hhp, hap⟩ := (Prod.mk.injEq _ _ _ _).mp hrest
  subst ht'
  rcases (mint_ok_iff _ _ _ _).mp h2 with ⟨-, rfl⟩
  rcases (mint_ok_iff _ _ _ _).mp h3 with ⟨-, rfl⟩
  refine ⟨hap.symm, hhp.symm, by simp; omega, ?_, by simp; omega⟩
  intro a haw
  simp [haw]

end ClawDug

namespace ClawDug

/-- Settlement when exactly one category has a winner: the event reports the
full pool for the sole winner, but the winner's balance grows by only
`2 * (prizePool / 2)`. -/
theorem settleEpoch_sole_winner (s : GameState) (now : Nat) (s' : GameState)
    (ev : EpochSettledEvent)
    (h : settleEpoch s now = .ok (s', ev)) :
    ((s.epochs s.currentEpoch).humanWinner = 0 →
      (s.epochs s.currentEpoch).agentWinner ≠ 0 →
      0 < (s.epochs s.currentEpoch).prizePool →
      (s.epochs s.currentEpoch).agentWinner ≠ s.treasury →
      ev.humanPrize = 0 ∧
      ev.agentPrize = (s.epochs s.currentEpoch).prizePool ∧
      ev.agentWinner = (s.epochs s.currentEpoch).agentWinner ∧
      s'.token.balances (s.epochs s.currentEpoch).agentWinner =
        s.token.balances (s.epochs s.currentEpoch).agentWinner +
          2 * ((s.epochs s.currentEpoch).prizePool / 2)) ∧
    ((s.epochs s.currentEpoch).agentWinner = 0 →
      (s.epochs s.currentEpoch).humanWinner ≠ 0 →
      0 < (s.epochs s.currentEpoch).prizePool →
      (s.epochs s.currentEpoch).humanWinner ≠ s.treasury →
      ev.agentPrize = 0 ∧
      ev.humanPrize = (s.epochs s.currentEpoch).prizePool ∧
      ev.humanWinner = (s.epochs s.currentEpoch).humanWinner ∧
      s'.token.balances (s.epochs s.currentEpoch).humanWinner =
        s.token.balances (s.epochs s.currentEpoch).humanWinner +
          2 * ((s.epochs s.currentEpoch).prizePool / 2)) := by
  simp only [settleEpoch] at h
  split at h
  next hend => exact Except.noConfusion h
  next hend =>
  split at h
  next hset => exact Except.noConfusion h
  next hset =>
  split at h
  next e h1 => exact Except.noConfusion h
  next t1 hp ap h1 =>
  split at h
  next e h2 => exact Except.noConfusion h
  next t2 h2 =>
  split at h
  next e h3 => exact Except.noConfusion h
  next t3 h3 =>
  injection h with h'
  obtain ⟨hs', hev⟩ := (Prod.mk.injEq _ _ _ _).mp h'
  subst hs'
  subst hev
  constructor
  · intro h0 ha hpz htr
    obtain ⟨hhp, hap, hbal, -, -⟩ :=
      settlePrizes_agent_only _ _ _ _ _ h0 ha hpz h1
    refine ⟨hhp, hap, rfl, ?_⟩
    have hb2 := (burnBlock_spec _ _ _ _ h2).2.1
    have hb3 := mintMaybe_balances _ _ _ _ _ h3 _ htr
    simpa [startNewEpoch, hb3, hb2] using hbal
  · intro h0 hh hpz htr
    obtain ⟨hap, hhp, hbal, -, -⟩ :=
      settlePrizes_human_only _ _ _ _ _ h0 hh hpz h1
    refine ⟨hap, hhp, rfl, ?_⟩
    have hb2 := (burnBlock_spec _ _ _ _ h2).2.1
    have hb3 := mintMaybe_balances _ _ _ _ _ h3 _ htr
    simpa [startNewEpoch, hb3, hb2] using hbal

end ClawDug

namespace ClawDug

/-- Settling an epoch whose pools are all zero succeeds, mints and burns
nothing, reports zero prizes, and opens the next epoch. -/
theorem settleEpoch_empty (s : GameState) (now : Nat)
    (hend : (s.epochs s.currentEpoch).endTime ≤ now)
    (hset : (s.epochs s.currentEpoch).settled = false)
    (hp0 : (s.epochs s.currentEpoch).prizePool = 0)
    (hb0 : (s.epochs s.currentEpoch).burnAmount = 0)
    (ht0 : (s.epochs s.currentEpoch).treasuryAmount = 0) :
    ∃ s' ev, settleEpoch s now = .ok (s', ev) ∧
      s'.token = s.token ∧
      s'.treasuryBalance = s.treasuryBalance ∧
      s'.currentEpoch = s.currentEpoch + 1 ∧
      s'.epochs s.currentEpoch = { s.epochs s.currentEpoch with settled := true } ∧
      s'.epochs (s.currentEpoch + 1) =
        { id := s.currentEpoch + 1, startTime := now, endTime := now + s.epochDuration
          prizePool := 0, burnAmount := 0, treasuryAmount := 0, settled := false
          humanWinner := 0, agentWinner := 0, humanTopScore := 0, agentTopScore := 0 } ∧
      ev = { epochId := s.currentEpoch
             humanWinner := (s.epochs s.currentEpoch).humanWinner, humanPrize := 0
             agentWinner := (s.epochs s.currentEpoch).agentWinner, agentPrize := 0 } := by
  have h1 : ¬ now < (s.epochs s.currentEpoch).endTime := by omega
  refine ⟨startNewEpoch
      { s with epochs := fun i => if i = s.currentEpoch then
          { s.epochs s.currentEpoch with settled := true } else s.epochs i } now,
    { epochId := s.currentEpoch
      humanWinner := (s.epochs s.currentEpoch).humanWinner, humanPrize := 0
      agentWinner := (s.epochs s.currentEpoch).agentWinner, agentPrize := 0 },
    ?_, rfl, rfl, rfl, ?_, ?_, rfl⟩
  · simp only [settleEpoch, h1, if_false, hset, settlePrizes, hp0, hb0, ht0,
      Bool.false_eq_true, lt_irrefl]
  · simp [startNewEpoch, Nat.ne_of_gt (Nat.lt_succ_self s.currentEpoch)]
  · simp [startNewEpoch]

end ClawDug

namespace ClawDug

-- ============================================================
--  Reachability
-- ============================================================

/-- The transitions the deployed system can take from a state. Successful
`submitScore` and `settleEpoch` calls are the game's own transitions; the
`env` step covers every other actor: ERC-20 `approve`/`transfer`/`burn` by
users (which may rearrange balances and allowances but — `mint` being
`onlyGame` — never increase the total supply), `AgentRegistry.register`, and
the owner's setters (`setScoreSigner`, `setFees`, `setEpochDuration`,
`setTreasury`); none of these can write the game's leaderboards, session set,
epochs, or treasury accumulator. -/
inductive Evolves (s0 : GameState) : GameState → Prop where
  | refl : Evolves s0 s0
  | submit (s s' : GameState) (caller : Address) (score round kills : Nat)
      (sessionId : Bytes32) (signedAt : Nat) (recovered : Address) (now : Nat) :
      Evolves s0 s →
      submitScore s caller score round kills sessionId signedAt recovered now = .ok s' →
      Evolves s0 s'
  | settle (s s' : GameState) (ev : EpochSettledEvent) (now : Nat) :
      Evolves s0 s → settleEpoch s now = .ok (s', ev) → Evolves s0 s'
  | env (s : GameState) (t : TokenState) (profs : Address → AgentProfile)
      (signer : Address) (hf af dur : Nat) (treas : Address) :
      Evolves s0 s → t.totalSupply ≤ s.token.totalSupply →
      Evolves s0 { s with token := t, profiles := profs, scoreSigner := signer
                          humanEntryFee := hf, agentEntryFee := af
                          epochDuration := dur, treasury := treas }

/-- A state of the deployed system: anything the constructor state can evolve
into. -/
def Reach (s : GameState) : Prop :=
  ∃ signer treas gAddr profs now s0,
    s0 = initialState signer treas gAddr profs now ∧ Evolves s0 s

/-- Once consumed, a session stays consumed across every later transition. -/
theorem evolves_used_mono (s s' : GameState) (hE : Evolves s s')
    (b : Bytes32) (h : s.usedSessions b = true) : s'.usedSessions b = true := by
  induction hE with
  | refl => exact h
  | submit sm sm' caller score round kills sessionId signedAt recovered now hE hok ih =>
    obtain ⟨-, hu, -, -, -, -⟩ :=
      submitScore_ok_spec _ _ _ _ _ _ _ _ _ _ hok
    rw [hu]
    by_cases hb : b = sessionId <;> simp [hb, ih]
  | settle sm sm' ev now hE hok ih =>
    obtain ⟨-, -, hu, -⟩ := settleEpoch_ok_spec _ _ _ _ hok
    rw [hu]
    exact ih
  | env sm t profs signer hf af dur treas hE hsup ih => exact ih

/-- The supply cap is preserved by every transition. -/
theorem evolves_supply_cap (s s' : GameState) (hE : Evolves s s')
    (h : s.token.totalSupply ≤ MAX_SUPPLY) :
    s'.token.totalSupply ≤ MAX_SUPPLY := by
  induction hE with
  | refl => exact h
  | submit sm sm' caller score round kills sessionId signedAt recovered now hE hok ih =>
    obtain ⟨-, -, hsup, -, -, -⟩ :=
      submitScore_ok_spec _ _ _ _ _ _ _ _ _ _ hok
    rcases hsup with h1 | h1
    · exact h1
    · rw [h1]; exact ih
  | settle sm sm' ev now hE hok ih =>
    obtain ⟨-, -, -, -, -, -, hsup, -⟩ := settleEpoch_ok_spec _ _ _ _ hok
    rcases hsup with h1 | h1
    · exact h1
    · rw [h1]; exact ih
  | env sm t profs signer hf af dur treas hE hsup ih =>
    exact le_trans hsup ih

end ClawDug

namespace ClawDug

/-- Both leaderboards satisfy the shape invariant, and every entry on a board
carries a consumed sessionId (which is what makes future entries' sessionIds
distinct from every board entry). -/
def BoardsOK (s : GameState) : Prop :=
  Sorted20 s.humanLeaderboard ∧ Sorted20 s.agentLeaderboard ∧
    (∀ x ∈ s.humanLeaderboard, s.usedSessions x.sessionId = true) ∧
    (∀ x ∈ s.agentLeaderboard, s.usedSessions x.sessionId = true)

theorem boardsOK_initial (signer treas gAddr : Address)
    (profs : Address → AgentProfile) (now : Nat) :
    BoardsOK (initialState signer treas gAddr profs now) := by
  refine ⟨⟨?_, ?_, ?_⟩, ⟨?_, ?_, ?_⟩, ?_, ?_⟩ <;>
    simp [initialState, startNewEpoch, LB_SIZE]

/-- Every transition preserves the board invariant. -/
theorem boardsOK_evolves (s0 s : GameState) (hE : Evolves s0 s)
    (h0 : BoardsOK s0) : BoardsOK s := by
  induction hE with
  | refl => exact h0
  | submit sm sm' caller score round kills sessionId signedAt recovered now hE hok ih =>
    obtain ⟨hfresh, hu, -, -, hAg, hHu⟩ :=
      submitScore_ok_spec _ _ _ _ _ _ _ _ _ _ hok
    obtain ⟨h1, h2, h3, h4⟩ := ih
    by_cases hAgc : (sm.profiles caller).isAgent = true
    · obtain ⟨hlb, hother⟩ := hAg hAgc
      have hfr : sessionId ∉ sm.agentLeaderboard.map ScoreEntry.sessionId := by
        intro hmem
        obtain ⟨y, hy, hysid⟩ := List.mem_map.mp hmem
        rw [← hysid] at hfresh
        rw [h4 y hy] at hfresh
        exact Bool.noConfusion hfresh
      refine ⟨by rw [hother]; exact h1, ?_, ?_, ?_⟩
      · rw [hlb]
        exact updateLeaderboard_sorted20 _ _ h2 (by simpa using hfr)
      · intro x hx
        rw [hother] at hx
        rw [hu]
        by_cases hb : x.sessionId = sessionId <;> simp [hb, h3 x hx]
      · intro x hx
        rw [hlb] at hx
        rw [hu]
        rcases updateLeaderboard_mem _ _ h2.2.1 x hx with rfl | hold
        · simp
        · by_cases hb : x.sessionId = sessionId <;> simp [hb, h4 x hold]
    · have hAgc' : (sm.profiles caller).isAgent = false := by
        cases hv : (sm.profiles caller).isAgent
        · rfl
        · exact absurd hv hAgc
      obtain ⟨hlb, hother⟩ := hHu hAgc'
      have hfr : sessionId ∉ sm.humanLeaderboard.map ScoreEntry.sessionId := by
        intro hmem
        obtain ⟨y, hy, hysid⟩ := List.mem_map.mp hmem
        rw [← hysid] at hfresh
        rw [h3 y hy] at hfresh
        exact Bool.noConfusion hfresh
      refine ⟨?_, by rw [hother]; exact h2, ?_, ?_⟩
      · rw [hlb]
        exact updateLeaderboard_sorted20 _ _ h1 (by simpa using hfr)
      · intro x hx
        rw [hlb] at hx
        rw [hu]
        rcases updateLeaderboard_mem _ _ h1.2.1 x hx with rfl | hold
        · simp
        · by_cases hb : x.sessionId = sessionId <;> simp [hb, h3 x hold]
      · intro x hx
        rw [hother] at hx
        rw [hu]
        by_cases hb : x.sessionId = sessionId <;> simp [hb, h4 x hx]
  | settle sm sm' ev now hE hok ih =>
    obtain ⟨hH, hA, hu, -⟩ := settleEpoch_ok_spec _ _ _ _ hok
    obtain ⟨h1, h2, h3, h4⟩ := ih
    rw [BoardsOK, hH, hA, hu]
    exact ⟨h1, h2, h3, h4⟩
  | env sm t profs signer hf af dur treas hE hsup ih => exact ih

end ClawDug

namespace ClawDug

-- ============================================================
--  Error classification of the token operations
-- ============================================================

theorem transferFrom_error_cases (t : TokenState) (spender from_ dst : Address)
    (amt : Nat) (e : GameError)
    (h : DugToken.transferFrom t spender from_ dst amt = .error e) :
    e = .InsufficientAllowance ∨ e = .InsufficientBalance := by
  unfold DugToken.transferFrom at h
  split at h
  · split at h
    · exact Except.noConfusion h
    · exact Or.inr (Except.error.inj h).symm
  · exact Or.inl (Except.error.inj h).symm

theorem mint_error_cases (t : TokenState) (dst : Address) (amt : Nat)
    (e : GameError) (h : DugToken.mint t dst amt = .error e) :
    e = .SupplyExceeded := by
  unfold DugToken.mint at h
  split at h
  · exact Except.noConfusion h
  · exact (Except.error.inj h).symm

theorem mintGameplayRewards_error_cases (t : TokenState) (player : Address)
    (kills round : Nat) (e : GameError)
    (h : mintGameplayRewards t player kills round = .error e) :
    e = .SupplyExceeded := by
  simp only [mintGameplayRewards] at h
  split at h
  · exact mint_error_cases _ _ _ _ h
  · exact Except.noConfusion h

-- ============================================================
--  Short-circuit behaviour of submitScore's check sequence
-- ============================================================

/-- The replay check is the first check: a consumed sessionId fails
`ReplayedSession` whatever the rest of the payload (signature included). -/
theorem submitScore_replayed (s : GameState) (caller : Address)
    (score round kills : Nat) (sessionId : Bytes32) (signedAt : Nat)
    (recovered : Address) (now : Nat)
    (h : s.usedSessions sessionId = true) :
    submitScore s caller score round kills sessionId signedAt recovered now =
      .error .ReplayedSession := by
  simp [submitScore, h]

/-- With a fresh session and an unexpired payload, a signature recovering to
anyone but the configured signer fails `InvalidSignature` (and, the call
reverting, the sessionId is not consumed). -/
theorem submitScore_invalid_sig (s : GameState) (caller : Address)
    (score round kills : Nat) (sessionId : Bytes32) (signedAt : Nat)
    (recovered : Address) (now : Nat)
    (hfresh : s.usedSessions sessionId = false)
    (hexp : now ≤ signedAt + FRESHNESS_WINDOW)
    (hsig : recovered ≠ s.scoreSigner) :
    submitScore s caller score round kills sessionId signedAt recovered now =
      .error .InvalidSignature := by
  simp [submitScore, hfresh, hsig, Nat.not_lt.mpr hexp]

/-- With a fresh session, the freshness check is decisive and exclusive:
the call returns `ExpiredSignature` exactly when `now > signedAt + 300`. -/
theorem submitScore_expired_iff (s : GameState) (caller : Address)
    (score round kills : Nat) (sessionId : Bytes32) (signedAt : Nat)
    (recovered : Address) (now : Nat)
    (hfresh : s.usedSessions sessionId = false)
    (hsig : recovered = s.scoreSigner) :
    (submitScore s caller score round kills sessionId signedAt recovered now =
        .error .ExpiredSignature) ↔
      signedAt + FRESHNESS_WINDOW < now := by
  constructor
  · intro h
    by_contra hnot
    simp only [submitScore, hfresh, Bool.false_eq_true, if_false, hnot,
      hsig, ne_eq, not_true_eq_false] at h
    split at h
    next e heq =>
      injection h with h'
      subst h'
      split at heq <;>
        (split at heq
         · split at heq
           next e' hTF =>
             injection heq with heq'
             subst heq'
             rcases transferFrom_error_cases _ _ _ _ _ _ hTF with h2 | h2 <;>
               exact GameError.noConfusion h2
           next t hTF => exact Except.noConfusion heq
         · exact Except.noConfusion heq)
    next s2 heq =>
      split at h
      next e2 ht2 =>
        injection h with h'
        subst h'
        exact GameError.noConfusion (mintGameplayRewards_error_cases _ _ _ _ _ ht2)
      next t2 ht2 => exact Except.noConfusion h
  · intro hlt
    simp [submitScore, hfresh, hlt]

end ClawDug

namespace ClawDug

/-- When a submission reaches the gameplay-reward mint (all checks pass, and
the fee step either is skipped or succeeds) and the reward would push the
supply over the cap, the whole call reverts with `SupplyExceeded`. -/
theorem submitScore_supply_exceeded (s : GameState) (caller : Address)
    (score round kills : Nat) (sessionId : Bytes32) (signedAt : Nat)
    (recovered : Address) (now : Nat)
    (hfresh : s.usedSessions sessionId = false)
    (hexp : now ≤ signedAt + FRESHNESS_WINDOW)
    (hsig : recovered = s.scoreSigner)
    (hfee : (if (s.profiles caller).isAgent = true then s.agentEntryFee
              else s.humanEntryFee) ≤ s.token.allowances caller s.gameAddr →
            (if (s.profiles caller).isAgent = true then s.agentEntryFee
              else s.humanEntryFee) ≤ s.token.balances caller)
    (hcap : s.token.totalSupply ≤ MAX_SUPPLY)
    (hover : MAX_SUPPLY < s.token.totalSupply + gameplayReward kills round) :
    submitScore s caller score round kills sessionId signedAt recovered now =
      .error .SupplyExceeded := by
  have htot : 0 < gameplayReward kills round := by omega
  by_cases hAl : (if (s.profiles caller).isAgent = true then s.agentEntryFee
      else s.humanEntryFee) ≤ s.token.allowances caller s.gameAddr
  · have hBal := hfee hAl
    simp only [submitScore, hfresh, Bool.false_eq_true, if_false,
      Nat.not_lt.mpr hexp, hsig, ne_eq, not_true_eq_false, hAl, if_true,
      DugToken.transferFrom, hBal, mintGameplayRewards, htot,
      DugToken.mint, distributeEntryFee]
    rw [if_neg (Nat.not_le.mpr hover)]
  · simp only [submitScore, hfresh, Bool.false_eq_true, if_false,
      Nat.not_lt.mpr hexp, hsig, ne_eq, not_true_eq_false, hAl,
      mintGameplayRewards, htot, DugToken.mint]
    rw [if_neg (Nat.not_le.mpr hover)]
    simp

end ClawDug

namespace ClawDug

/-- An insufficient allowance never blocks a submission: with the other
checks passing and the reward mint within the cap, the call succeeds. -/
theorem submitScore_fee_skip_ok (s : GameState) (caller : Address)
    (score round kills : Nat) (sessionId : Bytes32) (signedAt : Nat)
    (recovered : Address) (now : Nat)
    (hfresh : s.usedSessions sessionId = false)
    (hexp : now ≤ signedAt + FRESHNESS_WINDOW)
    (hsig : recovered = s.scoreSigner)
    (hallow : s.token.allowances caller s.gameAddr <
      (if (s.profiles caller).isAgent = true then s.agentEntryFee
        else s.humanEntryFee))
    (hmintok : s.token.totalSupply + gameplayReward kills round ≤ MAX_SUPPLY) :
    ∃ s', submitScore s caller score round kills sessionId signedAt recovered now = .ok s' := by
  have hAl : ¬ (if (s.profiles caller).isAgent = true then s.agentEntryFee
      else s.humanEntryFee) ≤ s.token.allowances caller s.gameAddr :=
    Nat.not_le.mpr hallow
  by_cases htot : 0 < gameplayReward kills round
  · simp only [submitScore, hfresh, Bool.false_eq_true, if_false,
      Nat.not_lt.mpr hexp, hsig, ne_eq, not_true_eq_false, hAl,
      mintGameplayRewards, htot, if_true, DugToken.mint, if_pos hmintok]
    exact ⟨_, rfl⟩
  · simp only [submitScore, hfresh, Bool.false_eq_true, if_false,
      Nat.not_lt.mpr hexp, hsig, ne_eq, not_true_eq_false, hAl,
      mintGameplayRewards, htot, if_false]
    exact ⟨_, rfl⟩

/-- When the allowance is below the fee and the submission succeeds, the fee
step was skipped wholesale: no pool of any epoch moved, no allowance was
spent, and the only token effect is the gameplay reward minted to the
caller; the top scores of the current epoch were still updated. -/
theorem submitScore_fee_skip_spec (s : GameState) (caller : Address)
    (score round kills : Nat) (sessionId : Bytes32) (signedAt : Nat)
    (recovered : Address) (now : Nat) (s' : GameState)
    (hallow : s.token.allowances caller s.gameAddr <
      (if (s.profiles caller).isAgent = true then s.agentEntryFee
        else s.humanEntryFee))
    (h : submitScore s caller score round kills sessionId signedAt recovered now = .ok s') :
    (∀ i, (s'.epochs i).prizePool = (s.epochs i).prizePool ∧
      (s'.epochs i).burnAmount = (s.epochs i).burnAmount ∧
      (s'.epochs i).treasuryAmount = (s.epochs i).treasuryAmount) ∧
    s'.token.allowances = s.token.allowances ∧
    s'.token.totalSupply = s.token.totalSupply + gameplayReward kills round ∧
    s'.token.balances caller = s.token.balances caller + gameplayReward kills round ∧
    (∀ a, a ≠ caller → s'.token.balances a = s.token.balances a) ∧
    (s'.epochs s.currentEpoch).agentTopScore =
      (if (s.profiles caller).isAgent = true ∧
          (s.epochs s.currentEpoch).agentTopScore < score then score
        else (s.epochs s.currentEpoch).agentTopScore) ∧
    (s'.epochs s.currentEpoch).humanTopScore =
      (if ¬ (s.profiles caller).isAgent = true ∧
          (s.epochs s.currentEpoch).humanTopScore < score then score
        else (s.epochs s.currentEpoch).humanTopScore) := by
  have hAl : ¬ (if (s.profiles caller).isAgent = true then s.agentEntryFee
      else s.humanEntryFee) ≤ s.token.allowances caller s.gameAddr :=
    Nat.not_le.mpr hallow
  simp only [submitScore] at h
  split at h
  next hused => exact Except.noConfusion h
  next hused =>
  split at h
  next hexp => exact Except.noConfusion h
  next hexp =>
  split at h
  next hsig => exact Except.noConfusion h
  next hsig =>
  simp only [] at h
  split at h
  next e ht2 => exact Except.noConfusion h
  next t2 ht2 =>
  injection h with h'
  subst h'
  have htok : t2.totalSupply = s.token.totalSupply + gameplayReward kills round ∧
      t2.balances caller = s.token.balances caller + gameplayReward kills round ∧
      (∀ a, a ≠ caller → t2.balances a = s.token.balances a) ∧
      t2.allowances = s.token.allowances := by
    simp only [mintGameplayRewards] at ht2
    split at ht2
    next htot =>
      rcases (mint_ok_iff _ _ _ _).mp ht2 with ⟨-, rfl⟩
      refine ⟨rfl, by simp, ?_, rfl⟩
      intro a ha
      simp [ha]
    next htot =>
      have h0 : gameplayReward kills round = 0 := by omega
      injection ht2 with ht2'
      rw [← ht2', h0]
      exact ⟨rfl, rfl, fun a ha => rfl, rfl⟩
  refine ⟨?_, ?_, ?_, ?_, ?_, ?_, ?_⟩
  · intro i
    by_cases hAg : (s.profiles caller).isAgent = true <;>
      by_cases hi : i = s.currentEpoch <;>
        simp [hAg, hi] <;>
        (constructor <;> split <;> simp)
  · by_cases hAg : (s.profiles caller).isAgent = true <;> simp [hAg, htok.2.2.2]
  · by_cases hAg : (s.profiles caller).isAgent = true <;> simp [hAg, htok.1]
  · by_cases hAg : (s.profiles caller).isAgent = true <;> simp [hAg, htok.2.1]
  · intro a ha
    by_cases hAg : (s.profiles caller).isAgent = true <;> simp [hAg, htok.2.2.1 a ha]
  · by_cases hAg : (s.profiles caller).isAgent = true <;>
      by_cases hsc : (s.epochs s.currentEpoch).agentTopScore < score <;>
        simp [hAg, hsc] <;> split <;> simp
  · by_cases hAg : (s.profiles caller).isAgent = true <;>
      by_cases hsc : (s.epochs s.currentEpoch).humanTopScore < score <;>
        simp [hAg, hsc] <;> split <;> simp

end ClawDug

namespace ClawDug

/-- After a successful settlement, `settleEpoch` now operates on the freshly
opened epoch: a second call before that epoch's `endTime` fails
`EpochNotEnded` — not `AlreadySettled`. -/
theorem settleEpoch_second_call (s : GameState) (now : Nat) (s' : GameState)
    (ev : EpochSettledEvent) (h : settleEpoch s now = .ok (s', ev))
    (now2 : Nat) (h2 : now2 < now + s.epochDuration) :
    settleEpoch s' now2 = .error .EpochNotEnded := by
  obtain ⟨-, -, -, hcur, -, -, -, hfresh, -, -, -⟩ := settleEpoch_ok_spec _ _ _ _ h
  have hep : (s'.epochs s'.currentEpoch).endTime = now + s.epochDuration := by
    rw [hcur, hfresh]
  simp [settleEpoch, hep, h2]

-- ============================================================
--  Concrete example states
-- ============================================================

/-- Registry fixture: address `5` is a registered agent, everyone else is
human. -/
def profsEx : Address → AgentProfile :=
  fun a =>
    if a = 5 then { isAgent := true, gamesPlayed := 0, totalScore := 0, bestScore := 0 }
    else { isAgent := false, gamesPlayed := 0, totalScore := 0, bestScore := 0 }

/-- The constructor state with signer `9`, treasury `3`, game address `4`,
deployed at `block.timestamp = 1` (epoch 1 spans `[1, 86401]`). -/
def exBase : GameState := initialState 9 3 4 profsEx 1

/-- `exBase` after the owner lowers the human entry fee to 10 wei
(`setFees`) and player `7` funds and approves the game — an `env` step. -/
def C1state : GameState :=
  { exBase with
    humanEntryFee := 10
    token := { totalSupply := 0
               balances := fun a => if a = 7 then 100 else 0
               allowances := fun a b => if a = 7 ∧ b = 4 then 100 else 0 } }

/-- A state whose current epoch has an even prize pool of `8` and a sole
agent winner `5`. -/
def C1wstate : GameState :=
  { exBase with
    epochs := fun i =>
      if i = 1 then
        { exBase.epochs 1 with prizePool := 8, agentWinner := 5, agentTopScore := 60 }
      else exBase.epochs i }

/-- A state in which sessionId `11` has already been consumed. -/
def C4state : GameState :=
  { exBase with usedSessions := fun b => if b = 11 then true else false }

/-- A state whose token supply already sits at the cap. -/
def C7state : GameState :=
  { exBase with
    token := { totalSupply := MAX_SUPPLY
               balances := fun _ => 0
               allowances := fun _ _ => 0 } }

/-- Player `7` holds tokens but has approved nothing. -/
def C8state : GameState :=
  { exBase with
    token := { totalSupply := 0
               balances := fun a => if a = 7 then 100 else 0
               allowances := fun _ _ => 0 } }

end ClawDug

namespace ClawDug

-- ============================================================
--  Claim C1
-- ============================================================

/-- C1 counterexample: with the human entry fee set to 10 wei, one paid
submission gives epoch 1 a prize pool of 7 (odd) and a sole human winner.
Settlement then credits the winner 96 = 90 + 2*(7/2) = 90 + 6 wei while the
event reports the full pool of 7 — the claimed total 90 + 7 = 97 is not
minted. -/
theorem C1_counterexample :
    (submitScore C1state 7 50 0 0 11 1 9 2).map
        (fun s1 => ((s1.epochs 1).prizePool, (s1.epochs 1).humanWinner,
          (s1.epochs 1).agentWinner, s1.token.balances 7)) = .ok (7, 7, 0, 90) ∧
    ((submitScore C1state 7 50 0 0 11 1 9 2).bind
        (fun s1 => settleEpoch s1 86401)).map
        (fun p => (p.1.token.balances 7, p.2.humanPrize)) = .ok (96, 7) ∧
    (96 : Nat) ≠ 90 + 7 :=
  ⟨rfl, rfl, by decide⟩

/-- C1 (amended): for every epoch with `prizePool > 0` in which exactly one
of `humanWinner`/`agentWinner` is null at settlement, `settleEpoch` mints to
the sole non-null winner a total of `2 * (prizePool / 2)` — the entire
`prizePool` exactly when the pool is even, one wei less when it is odd — and
the prize reported for that winner in the `EpochSettled` event equals the
full `prizePool`. -/
theorem C1_theorem (s : GameState) (now : Nat) (s' : GameState)
    (ev : EpochSettledEvent)
    (h : settleEpoch s now = .ok (s', ev)) :
    ((s.epochs s.currentEpoch).humanWinner = 0 →
      (s.epochs s.currentEpoch).agentWinner ≠ 0 →
      0 < (s.epochs s.currentEpoch).prizePool →
      (s.epochs s.currentEpoch).agentWinner ≠ s.treasury →
      ev.humanPrize = 0 ∧
      ev.agentPrize = (s.epochs s.currentEpoch).prizePool ∧
      ev.agentWinner = (s.epochs s.currentEpoch).agentWinner ∧
      s'.token.balances (s.epochs s.currentEpoch).agentWinner =
        s.token.balances (s.epochs s.currentEpoch).agentWinner +
          2 * ((s.epochs s.currentEpoch).prizePool / 2)) ∧
    ((s.epochs s.currentEpoch).agentWinner = 0 →
      (s.epochs s.currentEpoch).humanWinner ≠ 0 →
      0 < (s.epochs s.currentEpoch).prizePool →
      (s.epochs s.currentEpoch).humanWinner ≠ s.treasury →
      ev.agentPrize = 0 ∧
      ev.humanPrize = (s.epochs s.currentEpoch).prizePool ∧
      ev.humanWinner = (s.epochs s.currentEpoch).humanWinner ∧
      s'.token.balances (s.epochs s.currentEpoch).humanWinner =
        s.token.balances (s.epochs s.currentEpoch).humanWinner +
          2 * ((s.epochs s.currentEpoch).prizePool / 2)) :=
  settleEpoch_sole_winner s now s' ev h

/-- C1 witness: settling an epoch with an even pool of 8 and a sole agent
winner pays that winner exactly 8 and reports 8. -/
theorem C1_theorem_witness :
    (settleEpoch C1wstate 86401).map
      (fun p => (p.2.humanPrize, p.2.agentPrize, p.1.token.balances 5)) =
      .ok (0, 8, 8) := by
  have hval : (settleEpoch C1wstate 86401).isOk = true := rfl
  cases hres : settleEpoch C1wstate 86401 with
  | error e => rw [hres] at hval; exact Bool.noConfusion hval
  | ok p =>
    obtain ⟨s', ev⟩ := p
    obtain ⟨h1, h2, h3, h4⟩ :=
      (C1_theorem C1wstate 86401 s' ev hres).1 rfl (by decide) (by decide) (by decide)
    have h2' : ev.agentPrize = 8 := h2
    have h4' : s'.token.balances 5 = 0 + 2 * (8 / 2) := h4
    simp only [Except.map]
    rw [h1, h2', h4']

end ClawDug

namespace ClawDug

-- ============================================================
--  Claim C2
-- ============================================================

/-- C2 counterexample: settling epoch 1 of the freshly constructed game at
`t = 86401` succeeds; an immediately following second call fails with
`EpochNotEnded` (the call now addresses the newly opened epoch 2, whose
window has just started), not with `AlreadySettled` as claimed. -/
theorem C2_counterexample :
    (settleEpoch exBase 86401).bind (fun p => settleEpoch p.1 86401) =
      .error .EpochNotEnded ∧
    GameError.EpochNotEnded ≠ GameError.AlreadySettled :=
  ⟨rfl, by decide⟩

/-- C2 (amended): if `settleEpoch` succeeds once, a second call made before
the newly opened epoch's `endTime` (in particular an immediate retry, since
the new window is `epochDuration` long) fails with `EpochNotEnded` — not
`AlreadySettled` — and, the failing call reverting, the epoch state written
by the first call stands: the settled epoch's record keeps its `settled`
flag. -/
theorem C2_theorem (s : GameState) (now : Nat) (s' : GameState)
    (ev : EpochSettledEvent) (h : settleEpoch s now = .ok (s', ev))
    (now2 : Nat) (h2 : now2 < now + s.epochDuration) :
    settleEpoch s' now2 = .error .EpochNotEnded ∧
    (s'.epochs s.currentEpoch).settled = true :=
  ⟨settleEpoch_second_call s now s' ev h now2 h2,
   (settleEpoch_ok_spec s now s' ev h).2.2.2.2.2.2.2.2.1⟩

/-- C2 witness: the double-settlement scenario at `t = 86401` on the
constructor state. -/
theorem C2_theorem_witness :
    (settleEpoch exBase 86401).bind (fun p => settleEpoch p.1 86401) =
      .error .EpochNotEnded := by
  have hval : (settleEpoch exBase 86401).isOk = true := rfl
  cases hres : settleEpoch exBase 86401 with
  | error e => rw [hres] at hval; exact Bool.noConfusion hval
  | ok p =>
    obtain ⟨s', ev⟩ := p
    have hc := C2_theorem exBase 86401 s' ev hres 86401 (by decide)
    simp [Except.bind, hc.1]

-- ============================================================
--  Claim C3
-- ============================================================

/-- C3 counterexample: the spec's own scenario fee `F = 5`: the splits are
3 / 0 / 1, and `3 + 0 + 1 ≠ 5` — one unit is lost to truncation. -/
theorem C3_counterexample :
    ((distributeEntryFee exBase 5).epochs 1).prizePool = 3 ∧
    ((distributeEntryFee exBase 5).epochs 1).burnAmount = 0 ∧
    ((distributeEntryFee exBase 5).epochs 1).treasuryAmount = 1 ∧
    (exBase.epochs 1).prizePool = 0 ∧
    (exBase.epochs 1).burnAmount = 0 ∧
    (exBase.epochs 1).treasuryAmount = 0 ∧
    3 + 0 + 1 ≠ 5 :=
  ⟨rfl, rfl, rfl, rfl, rfl, rfl, by decide⟩

/-- C3 (amended): for every fee amount `F`, the increments of
`_distributeEntryFee` to the current epoch satisfy
`prizePool_delta + burnAmount_delta + treasuryAmount_delta ≤ F`, with
equality exactly when `F` is a multiple of 10 base units (in particular the
default fees, multiples of `10^18`, are split exactly); otherwise the
remainder is lost to integer truncation — never gained. -/
theorem C3_theorem (s : GameState) (F : Nat) :
    ((distributeEntryFee s F).epochs s.currentEpoch).prizePool +
        ((distributeEntryFee s F).epochs s.currentEpoch).burnAmount +
        ((distributeEntryFee s F).epochs s.currentEpoch).treasuryAmount ≤
      (s.epochs s.currentEpoch).prizePool + (s.epochs s.currentEpoch).burnAmount +
        (s.epochs s.currentEpoch).treasuryAmount + F ∧
    (((distributeEntryFee s F).epochs s.currentEpoch).prizePool +
        ((distributeEntryFee s F).epochs s.currentEpoch).burnAmount +
        ((distributeEntryFee s F).epochs s.currentEpoch).treasuryAmount =
      (s.epochs s.currentEpoch).prizePool + (s.epochs s.currentEpoch).burnAmount +
        (s.epochs s.currentEpoch).treasuryAmount + F ↔ F % 10 = 0) := by
  obtain ⟨hp, hb, ht⟩ := distributeEntryFee_spec s F
  obtain ⟨hle, hiff⟩ := feeSplit_sum F
  rw [hp, hb, ht]
  constructor
  · omega
  · constructor
    · intro he
      exact hiff.mp (by omega)
    · intro hm
      have := hiff.mpr hm
      omega

-- ============================================================
--  Claim C4
-- ============================================================

/-- C4 counterexample: a submission whose sessionId is already consumed and
whose signature recovers to `8` (not the signer `9`) fails with
`ReplayedSession`, not `InvalidSignature`: the replay check runs first. -/
theorem C4_counterexample :
    submitScore C4state 7 50 0 0 11 1 8 2 = .error .ReplayedSession ∧
    GameError.ReplayedSession ≠ GameError.InvalidSignature :=
  ⟨rfl, by decide⟩

/-- C4 (amended): the replay check precedes signature verification: a
consumed sessionId fails `ReplayedSession` regardless of the signature; for
a fresh sessionId within the freshness window, a signature that does not
recover to the configured scoreSigner fails `InvalidSignature` (and, the
call reverting before `usedSessions[sessionId] = true` executes, the
sessionId is marked consumed only when signature verification succeeds). -/
theorem C4_theorem :
    (∀ (s : GameState) (caller : Address) (score round kills : Nat)
        (sessionId : Bytes32) (signedAt : Nat) (recovered : Address) (now : Nat),
      s.usedSessions sessionId = true →
      submitScore s caller score round kills sessionId signedAt recovered now =
        .error .ReplayedSession) ∧
    (∀ (s : GameState) (caller : Address) (score round kills : Nat)
        (sessionId : Bytes32) (signedAt : Nat) (recovered : Address) (now : Nat),
      s.usedSessions sessionId = false →
      now ≤ signedAt + FRESHNESS_WINDOW →
      recovered ≠ s.scoreSigner →
      submitScore s caller score round kills sessionId signedAt recovered now =
        .error .InvalidSignature) :=
  ⟨fun s caller score round kills sessionId signedAt recovered now h =>
      submitScore_replayed s caller score round kills sessionId signedAt recovered now h,
   fun s caller score round kills sessionId signedAt recovered now h1 h2 h3 =>
      submitScore_invalid_sig s caller score round kills sessionId signedAt recovered now h1 h2 h3⟩

/-- C4 witness: both halves at concrete inputs. -/
theorem C4_theorem_witness :
    submitScore C4state 7 50 0 0 11 1 8 2 = .error .ReplayedSession ∧
    submitScore exBase 7 50 0 0 12 1 8 2 = .error .InvalidSignature :=
  ⟨C4_theorem.1 C4state 7 50 0 0 11 1 8 2 rfl,
   C4_theorem.2 exBase 7 50 0 0 12 1 8 2 rfl (by decide) (by decide)⟩

end ClawDug

namespace ClawDug

-- ============================================================
--  Claim C5
-- ============================================================

/-- C5: after every sequence of successful `submitScore` calls (interleaved
with settlements and external token/registry/admin activity) each of the two
leaderboards is sorted non-increasing by score, has at most 20 occupied
entries and no duplicate sessionId; an entry with score equal to an existing
entry's never displaces it — the incumbents with score at least the new one
stay in place ahead of it — and on a full board a score that strictly
exceeds no incumbent is discarded without error (the update returns the
board unchanged). -/
theorem C5_theorem :
    (∀ s, Reach s → Sorted20 s.humanLeaderboard ∧ Sorted20 s.agentLeaderboard) ∧
    (∀ (lb : List ScoreEntry) (e : ScoreEntry), lb.length ≤ LB_SIZE →
      ∃ rest, updateLeaderboard lb e =
        lb.takeWhile (fun x => decide (e.score ≤ x.score)) ++ rest) ∧
    (∀ (lb : List ScoreEntry) (e : ScoreEntry), lb.length = LB_SIZE →
      (∀ x ∈ lb, e.score ≤ x.score) → updateLeaderboard lb e = lb) := by
  refine ⟨?_, updateLeaderboard_stable, updateLeaderboard_full_discard⟩
  intro s hs
  obtain ⟨signer, treas, gAddr, profs, now, s0, hs0, hE⟩ := hs
  have h := boardsOK_evolves s0 s hE
    (by rw [hs0]; exact boardsOK_initial signer treas gAddr profs now)
  exact ⟨h.1, h.2.1⟩

/-- C5 witness: the constructor state is reachable with well-formed (empty)
boards; a tie insert keeps the incumbents ahead; a full board of twenties
drops a non-exceeding submission. -/
theorem C5_theorem_witness :
    (Sorted20 exBase.humanLeaderboard ∧ Sorted20 exBase.agentLeaderboard) ∧
    (∃ rest, updateLeaderboard []
        { player := 1, score := 50, round := 1, kills := 2, isAgent := false
          timestamp := 5, sessionId := 21 } =
      List.takeWhile (fun x => decide ((50:Nat) ≤ x.score)) [] ++ rest) ∧
    updateLeaderboard
        (List.replicate 20
          { player := 2, score := 5, round := 0, kills := 0, isAgent := false
            timestamp := 1, sessionId := 22 })
        { player := 3, score := 5, round := 0, kills := 0, isAgent := false
          timestamp := 9, sessionId := 23 } =
      List.replicate 20
        { player := 2, score := 5, round := 0, kills := 0, isAgent := false
          timestamp := 1, sessionId := 22 } :=
  ⟨C5_theorem.1 exBase ⟨9, 3, 4, profsEx, 1, exBase, rfl, Evolves.refl⟩,
   C5_theorem.2.1 _ _ (by decide),
   C5_theorem.2.2 _ _ (by decide) (by decide)⟩

-- ============================================================
--  Claim C6
-- ============================================================

/-- C6: once a sessionId has been consumed, every later `submitScore` call
carrying it — after any number of further submissions, settlements and
external steps — fails with `ReplayedSession`; the failing call reverts, so
the first call's leaderboard and epoch effects stand. -/
theorem C6_theorem (s s' : GameState) (hE : Evolves s s') (sessionId : Bytes32)
    (h : s.usedSessions sessionId = true) (caller : Address)
    (score round kills signedAt : Nat) (recovered : Address) (now : Nat) :
    submitScore s' caller score round kills sessionId signedAt recovered now =
      .error .ReplayedSession :=
  submitScore_replayed s' caller score round kills sessionId signedAt recovered now
    (evolves_used_mono s s' hE sessionId h)

/-- C6 witness: a successful submission consuming sessionId 11 followed by a
replay of the same sessionId. -/
theorem C6_theorem_witness :
    (submitScore C1state 7 50 0 0 11 1 9 2).bind
      (fun s1 => submitScore s1 7 60 0 0 11 1 9 3) = .error .ReplayedSession := by
  have hval : (submitScore C1state 7 50 0 0 11 1 9 2).isOk = true := rfl
  cases hres : submitScore C1state 7 50 0 0 11 1 9 2 with
  | error e => rw [hres] at hval; exact Bool.noConfusion hval
  | ok s1 =>
    have hused : s1.usedSessions 11 = true := by
      obtain ⟨-, hu, -⟩ := submitScore_ok_spec _ _ _ _ _ _ _ _ _ _ hres
      rw [hu]
      simp
    simp only [Except.bind]
    exact C6_theorem s1 s1 Evolves.refl 11 hused 7 60 0 0 1 9 3

end ClawDug

namespace ClawDug

-- ============================================================
--  Claim C7
-- ============================================================

/-- C7: a `submitScore` call that reaches the gameplay-reward mint (checks
pass; the fee step, when attempted, can pay) whose reward would push the
total supply above `MAX_SUPPLY` fails wholesale with `SupplyExceeded`; in
the `Except` embedding of EVM reverts the failing call returns no state, so
supply, leaderboards, session registry and epoch pools are exactly as
before. Moreover every reachable transition keeps
`totalSupply ≤ MAX_SUPPLY`. -/
theorem C7_theorem :
    (∀ (s : GameState) (caller : Address) (score round kills : Nat)
        (sessionId : Bytes32) (signedAt : Nat) (recovered : Address) (now : Nat),
      s.usedSessions sessionId = false →
      now ≤ signedAt + FRESHNESS_WINDOW →
      recovered = s.scoreSigner →
      ((if (s.profiles caller).isAgent = true then s.agentEntryFee
          else s.humanEntryFee) ≤ s.token.allowances caller s.gameAddr →
        (if (s.profiles caller).isAgent = true then s.agentEntryFee
          else s.humanEntryFee) ≤ s.token.balances caller) →
      s.token.totalSupply ≤ MAX_SUPPLY →
      MAX_SUPPLY < s.token.totalSupply + gameplayReward kills round →
      submitScore s caller score round kills sessionId signedAt recovered now =
        .error .SupplyExceeded) ∧
    (∀ s0 s, Evolves s0 s → s0.token.totalSupply ≤ MAX_SUPPLY →
      s.token.totalSupply ≤ MAX_SUPPLY) :=
  ⟨fun s caller score round kills sessionId signedAt recovered now h1 h2 h3 h4 h5 h6 =>
      submitScore_supply_exceeded s caller score round kills sessionId signedAt
        recovered now h1 h2 h3 h4 h5 h6,
   fun s0 s hE h => evolves_supply_cap s0 s hE h⟩

/-- C7 witness: with the supply at the cap, a submission earning one kill's
reward fails `SupplyExceeded`; and the constructor state respects the cap. -/
theorem C7_theorem_witness :
    submitScore C7state 7 50 0 1 12 1 9 2 = .error .SupplyExceeded ∧
    exBase.token.totalSupply ≤ MAX_SUPPLY :=
  ⟨C7_theorem.1 C7state 7 50 0 1 12 1 9 2 rfl (by decide) rfl
      (fun hc => absurd hc (by decide)) (by decide) (by decide),
   C7_theorem.2 exBase exBase Evolves.refl (by decide)⟩

-- ============================================================
--  Claim C8
-- ============================================================

/-- C8: when the submitter's allowance to the game is below the category
entry fee, the fee step is silently skipped: the call still succeeds
(given the reward mint fits under the cap), no pool of any epoch moves, no
allowance is spent, the only token movement is the gameplay reward minted to
the caller, and the leaderboard (established separately by the structural
lemma on successful calls) and epoch top scores are still updated. -/
theorem C8_theorem :
    (∀ (s : GameState) (caller : Address) (score round kills : Nat)
        (sessionId : Bytes32) (signedAt : Nat) (recovered : Address) (now : Nat),
      s.usedSessions sessionId = false →
      now ≤ signedAt + FRESHNESS_WINDOW →
      recovered = s.scoreSigner →
      s.token.allowances caller s.gameAddr <
        (if (s.profiles caller).isAgent = true then s.agentEntryFee
          else s.humanEntryFee) →
      s.token.totalSupply + gameplayReward kills round ≤ MAX_SUPPLY →
      ∃ s', submitScore s caller score round kills sessionId signedAt recovered now = .ok s') ∧
    (∀ (s : GameState) (caller : Address) (score round kills : Nat)
        (sessionId : Bytes32) (signedAt : Nat) (recovered : Address) (now : Nat)
        (s' : GameState),
      s.token.allowances caller s.gameAddr <
        (if (s.profiles caller).isAgent = true then s.agentEntryFee
          else s.humanEntryFee) →
      submitScore s caller score round kills sessionId signedAt recovered now = .ok s' →
      (∀ i, (s'.epochs i).prizePool = (s.epochs i).prizePool ∧
        (s'.epochs i).burnAmount = (s.epochs i).burnAmount ∧
        (s'.epochs i).treasuryAmount = (s.epochs i).treasuryAmount) ∧
      s'.token.allowances = s.token.allowances ∧
      s'.token.totalSupply = s.token.totalSupply + gameplayReward kills round ∧
      s'.token.balances caller = s.token.balances caller + gameplayReward kills round ∧
      (∀ a, a ≠ caller → s'.token.balances a = s.token.balances a) ∧
      (s'.epochs s.currentEpoch).agentTopScore =
        (if (s.profiles caller).isAgent = true ∧
            (s.epochs s.currentEpoch).agentTopScore < score then score
          else (s.epochs s.currentEpoch).agentTopScore) ∧
      (s'.epochs s.currentEpoch).humanTopScore =
        (if ¬ (s.profiles caller).isAgent = true ∧
            (s.epochs s.currentEpoch).humanTopScore < score then score
          else (s.epochs s.currentEpoch).humanTopScore)) :=
  ⟨fun s caller score round kills sessionId signedAt recovered now h1 h2 h3 h4 h5 =>
      submitScore_fee_skip_ok s caller score round kills sessionId signedAt
        recovered now h1 h2 h3 h4 h5,
   fun s caller score round kills sessionId signedAt recovered now s' h4 h =>
      submitScore_fee_skip_spec s caller score round kills sessionId signedAt
        recovered now s' h4 h⟩

/-- C8 witness: a zero-allowance submission earning `14 DUG` of rewards
succeeds, leaves all pools at zero, and mints exactly the reward. -/
theorem C8_theorem_witness :
    (submitScore C8state 7 50 1 2 13 1 9 2).map
      (fun s' => ((s'.epochs 1).prizePool, (s'.epochs 1).burnAmount,
        (s'.epochs 1).treasuryAmount, s'.token.totalSupply)) =
      .ok (0, 0, 0, 14 * 10 ^ 18) := by
  obtain ⟨s', hres⟩ :=
    C8_theorem.1 C8state 7 50 1 2 13 1 9 2 rfl (by decide) rfl (by decide) (by decide)
  obtain ⟨hpools, -, hsup, -⟩ :=
    C8_theorem.2 C8state 7 50 1 2 13 1 9 2 s' (by decide) hres
  rw [hres]
  simp only [Except.map]
  obtain ⟨hp, hb, ht⟩ := hpools 1
  rw [hp, hb, ht, hsup]
  rfl

-- ============================================================
--  Claim C9
-- ============================================================

/-- C9: for a validly signed submission with a fresh session, `submitScore`
fails with `ExpiredSignature` exactly when the current time exceeds
`signedAt + 300` seconds: acceptance of the freshness check is the boundary
condition `now ≤ signedAt + 300`. -/
theorem C9_theorem (s : GameState) (caller : Address) (score round kills : Nat)
    (sessionId : Bytes32) (signedAt : Nat) (recovered : Address) (now : Nat)
    (hfresh : s.usedSessions sessionId = false)
    (hsig : recovered = s.scoreSigner) :
    (submitScore s caller score round kills sessionId signedAt recovered now =
        .error .ExpiredSignature) ↔
      signedAt + FRESHNESS_WINDOW < now :=
  submitScore_expired_iff s caller score round kills sessionId signedAt
    recovered now hfresh hsig

/-- C9 witness: a payload signed at `t = 1000` fails `ExpiredSignature` when
submitted 301 seconds later and passes the freshness check 299 seconds
later. -/
theorem C9_theorem_witness :
    submitScore exBase 7 50 0 0 14 1000 9 1301 = .error .ExpiredSignature ∧
    submitScore exBase 7 50 0 0 14 1000 9 1299 ≠ .error .ExpiredSignature :=
  ⟨(C9_theorem exBase 7 50 0 0 14 1000 9 1301 rfl rfl).mpr (by decide),
   fun hc => absurd ((C9_theorem exBase 7 50 0 0 14 1000 9 1299 rfl rfl).mp hc)
     (by decide)⟩

-- ============================================================
--  Claim C10
-- ============================================================

/-- C10: settling an epoch at or after its `endTime` when its `prizePool`,
`burnAmount` and `treasuryAmount` are all zero succeeds: the epoch is
recorded settled, the token ledger is untouched (nothing minted or burned),
`EpochSettled` reports both prizes zero, and a fresh epoch with
`id = previous + 1`, `startTime = now`, `endTime = now + epochDuration` is
opened. -/
theorem C10_theorem (s : GameState) (now : Nat)
    (hend : (s.epochs s.currentEpoch).endTime ≤ now)
    (hset : (s.epochs s.currentEpoch).settled = false)
    (hp0 : (s.epochs s.currentEpoch).prizePool = 0)
    (hb0 : (s.epochs s.currentEpoch).burnAmount = 0)
    (ht0 : (s.epochs s.currentEpoch).treasuryAmount = 0) :
    ∃ s' ev, settleEpoch s now = .ok (s', ev) ∧
      s'.token = s.token ∧
      s'.treasuryBalance = s.treasuryBalance ∧
      s'.currentEpoch = s.currentEpoch + 1 ∧
      s'.epochs s.currentEpoch = { s.epochs s.currentEpoch with settled := true } ∧
      s'.epochs (s.currentEpoch + 1) =
        { id := s.currentEpoch + 1, startTime := now, endTime := now + s.epochDuration
          prizePool := 0, burnAmount := 0, treasuryAmount := 0, settled := false
          humanWinner := 0, agentWinner := 0, humanTopScore := 0, agentTopScore := 0 } ∧
      ev = { epochId := s.currentEpoch
             humanWinner := (s.epochs s.currentEpoch).humanWinner, humanPrize := 0
             agentWinner := (s.epochs s.currentEpoch).agentWinner, agentPrize := 0 } :=
  settleEpoch_empty s now hend hset hp0 hb0 ht0

/-- C10 witness: settling the constructor state's empty epoch 1 at
`t = 86401` opens epoch 2 with window `[86401, 172801]`, reports zero prizes
and mints nothing. -/
theorem C10_theorem_witness :
    (settleEpoch exBase 86401).map
      (fun p => (p.1.currentEpoch, (p.1.epochs 2).startTime,
        (p.1.epochs 2).endTime, p.2.humanPrize, p.2.agentPrize,
        p.1.token.totalSupply)) = .ok (2, 86401, 172801, 0, 0, 0) := by
  obtain ⟨s', ev, hok, htok, htb, hcur, hold, hnew, hev⟩ :=
    C10_theorem exBase 86401 (by decide) rfl rfl rfl rfl
  have hcur2 : s'.currentEpoch = 2 := hcur
  have hnew2 : s'.epochs 2 =
      { id := 2, startTime := 86401, endTime := 86401 + exBase.epochDuration
        prizePool := 0, burnAmount := 0, treasuryAmount := 0, settled := false
        humanWinner := 0, agentWinner := 0, humanTopScore := 0
        agentTopScore := 0 } := hnew
  rw [hok]
  simp only [Except.map]
  rw [hcur2, hnew2, hev, htok]
  rfl

end ClawDug
